import Mathlib

/-!
Verification of the attack-injection and coordinated-sequencing pipeline of the
`llm-models` repository (`src/simulation/attack_classes.py`,
`src/simulation/attack_simulator.py`, `src/simulation/coordinated_attack.py`).

The pandas DataFrame of incident rows is modelled as a `List Row`; Python
object aliasing (the `df.copy()` calls of the source) is modelled with a small
heap of tables (`Heap`), where `copy` allocates a fresh cell and in-place
`loc[...] = ...` writes mutate a cell.  Floating point column values are
modelled as exact rationals.  The seeded/ambient numpy generators are
modelled as a bundle of deterministic draw streams (`Dists`): each
`np.random.<dist>(params, size=k)` call yields, for the row at position `j`
of the sampled targets, the value `Dists.<dist> params j` — a function of the
distribution parameters and the position only, which is exactly the
reproducibility granted by the fixed seeds in the source.  Because a normal
or lognormal scale parameter is an (irrational) standard deviation, the
scale argument is encoded by its square (the sample variance, a rational):
the map `var ↦ sqrt var` is an injective monotone correspondence, so the
encoding distinguishes exactly the parameter values the source distinguishes,
and numpy's `sigma < 0` validation for `lognormal(mean=log μ, sigma=log σ)`
becomes `var < 1`.
-/

namespace AttackSim

/-- Python `round` (banker's rounding, half to even) on an exact rational;
pandas `DataFrame.sample(frac=f)` draws `round(f * n)` rows. -/
def roundHalfEven (q : Rat) : Int :=
  let f := q.floor
  let r := q - (f : Rat)
  if r < 1/2 then f
  else if 1/2 < r then f + 1
  else if f % 2 = 0 then f else f + 1

/-- numpy `.astype(int)`: truncation toward zero. -/
def pyTrunc (q : Rat) : Int :=
  if 0 ≤ q then q.floor else q.ceil

/-- Python `str.capitalize()`: first character upper-cased, the rest lower-cased. -/
def pyCapitalize (s : String) : String :=
  match s.data with
  | [] => ""
  | c :: cs => String.mk (c.toUpper :: cs.map Char.toLower)

/-- One incident-table row, restricted to the columns the simulation code
reads or writes.  `timestampHour` is the hour extracted by
`pd.to_datetime(...).dt.hour` (`none` = unparseable timestamp, NaT);
`hourCol` models the `hour` column the insider attack adds (`none` = column
absent); `actualAnomaly` models the `Actual Anomaly` column the early
anomaly detector adds. -/
structure Row where
  category : String := ""
  loginAttempts : Rat := 0
  impactScore : Rat := 0
  threatScore : Rat := 0
  numFilesAccessed : Rat := 0
  sessionDuration : Rat := 0
  dataTransferMB : Rat := 0
  cpuUsage : Rat := 0
  memUsage : Rat := 0
  timestampHour : Option Nat := none
  accessRestrictedFiles : Bool := false
  sourceIP : String := ""
  destIP : String := ""
  attackType : String := ""
  threatLevel : String := ""
  anomalyInjected : Bool := false
  phase : String := ""
  hourCol : Option (Option Nat) := none
  actualAnomaly : Option Nat := none
  deriving DecidableEq

instance : Inhabited Row := ⟨{}⟩

/-- Names of the numeric columns the attacks perturb. -/
inductive Col where
  | login | impact | threat | files | session | transfer | cpu | mem
  deriving DecidableEq

def colFn : Col → Row → Rat
  | .login => Row.loginAttempts
  | .impact => Row.impactScore
  | .threat => Row.threatScore
  | .files => Row.numFilesAccessed
  | .session => Row.sessionDuration
  | .transfer => Row.dataTransferMB
  | .cpu => Row.cpuUsage
  | .mem => Row.memUsage

/-- Row of a table at a position (pandas positional row access). -/
def rowGet (df : List Row) (i : Nat) : Row := df.getD i default

/-- `BaseAttack._safe_mean`: the column mean when defined and nonnegative,
otherwise the default `1.0`. -/
def safeMean (xs : List Rat) : Rat :=
  if xs.length = 0 then 1
  else
    let v := xs.sum / (xs.length : Rat)
    if 0 ≤ v then v else 1

/-- `BaseAttack._safe_std`, encoded by its square: the sample variance
(ddof = 1, `none`/NaN below two values) when positive, otherwise the square
of the default `0.5`. -/
def safeStdSq (xs : List Rat) : Rat :=
  if xs.length < 2 then 1/4
  else
    let mu := xs.sum / (xs.length : Rat)
    let v := (xs.map (fun x => (x - mu) * (x - mu))).sum / ((xs.length : Rat) - 1)
    if 0 < v then v else 1/4

/-- The deterministic draw streams standing for the seeded/ambient numpy
generators.  `normal loc varCode j` is the j-th draw of
`np.random.normal(loc, sqrt varCode)`; `poisson lam j`, `exponential scale j`
likewise; `lognormal meanArg varCode j` is the j-th draw of
`np.random.lognormal(log meanArg, log (sqrt varCode))` (nonnegative, as the
exponential of a real).  Exponential draws are nonnegative for nonnegative
scale, matching the distribution's support.  `ipPair` stands for
`IPAddressGenerator.generate_ip_pair`. -/
structure Dists where
  normal : Rat → Rat → Nat → Rat
  poisson : Rat → Nat → Nat
  exponential : Rat → Nat → Rat
  lognormal : Rat → Rat → Nat → Rat
  ipPair : Nat → String × String
  exponential_nonneg : ∀ s i, 0 ≤ s → 0 ≤ exponential s i
  lognormal_nonneg : ∀ a b i, 0 ≤ lognormal a b i

/-- A trivial instantiation of the draw streams (all draws zero), used to
evaluate the pipeline on concrete inputs. -/
def idDists : Dists where
  normal := fun _ _ _ => 0
  poisson := fun _ _ => 0
  exponential := fun _ _ => 0
  lognormal := fun _ _ _ => 0
  ipPair := fun _ => ("10.0.0.1", "10.0.0.2")
  exponential_nonneg := fun _ _ _ => le_refl 0
  lognormal_nonneg := fun _ _ _ => le_refl 0

/-- Positions of the rows satisfying a predicate (a pandas boolean-mask
selection, keeping row order). -/
def filterIdx (p : Row → Bool) (df : List Row) : List Nat :=
  (List.range df.length).filter (fun i => p (rowGet df i))

/-- Number of rows drawn by `DataFrame.sample(frac=f)` from `n` rows. -/
def sampleCount (frac : Rat) (n : Nat) : Nat :=
  (roundHalfEven (frac * (n : Rat))).toNat

/-- Error conditions surfaced by the pipeline. -/
inductive PyErr where
  | typeError (msg : String)
  | valueError (msg : String)
  deriving DecidableEq

instance exceptDecEq {ε α : Type} [DecidableEq ε] [DecidableEq α] :
    DecidableEq (Except ε α) := fun x y =>
  match x, y with
  | .ok a, .ok b =>
      if h : a = b then .isTrue (by rw [h])
      else .isFalse (by intro he; cases he; exact h rfl)
  | .error a, .error b =>
      if h : a = b then .isTrue (by rw [h])
      else .isFalse (by intro he; cases he; exact h rfl)
  | .ok _, .error _ => .isFalse (by intro he; cases he)
  | .error _, .ok _ => .isFalse (by intro he; cases he)

/-- Row-selection predicate of each attack kind, from the source filters:
a `Category` equality for five kinds, the late-hour test
`(hour < 6) | (hour > 23)` for the insider kind (false on NaT, as NaN
comparisons are false in pandas). -/
def kindPred : String → Row → Bool
  | "phishing" => fun r => r.category == "Access Control"
  | "malware" => fun r => r.category == "System Vulnerability"
  | "ddos" => fun r => r.category == "Network Security"
  | "data_leak" => fun r => r.category == "Data Breach"
  | "insider" => fun r =>
      match r.timestampHour with
      | some h => decide (h < 6) || decide (23 < h)
      | none => false
  | "ransomware" => fun r => r.category == "System Vulnerability"
  | _ => fun _ => false

/-- Sampling fraction of each attack kind. -/
def kindFrac : String → Rat
  | "ddos" => 1/5
  | "ransomware" => 1/50
  | _ => 1/10

/-- `self.df['hour'] = pd.to_datetime(self.df['Timestamps']).dt.hour` of the
insider attack: adds the hour column. -/
def addHourCol (r : Row) : Row := { r with hourCol := some r.timestampHour }

/-- The filtered row positions an attack kind selects from (for the insider
kind the filter runs on the table with the added hour column). -/
def attackFiltered (kind : String) (df : List Row) : List Nat :=
  if kind == "insider" then filterIdx (kindPred "insider") (df.map addHourCol)
  else filterIdx (kindPred kind) df

/-- `filtered.sample(frac=kindFrac, random_state=42)`: with the fixed seed
this is a deterministic choice of `round(frac * n)` of the filtered rows;
the seeded pseudorandom choice is modelled as the first that-many filtered
positions (no claim depends on which rows the fixed seed picks). -/
def attackTargets (kind : String) (df : List Row) : List Nat :=
  let fl := attackFiltered kind df
  fl.take (sampleCount (kindFrac kind) fl.length)

/-- Vectorised `self.df.loc[targets.index, col] = ...`: each row whose
position is the j-th element of `tgt` is replaced by `f j row`. -/
def updRowsGo (tgt : List Nat) (f : Nat → Row → Row) : Nat → List Row → List Row
  | _, [] => []
  | i, r :: rs =>
      (if i ∈ tgt then f (tgt.indexOf i) r else r) :: updRowsGo tgt f (i + 1) rs

def updRows (tgt : List Nat) (f : Nat → Row → Row) (df : List Row) : List Row :=
  updRowsGo tgt f 0 df

/-- `PhishingAttack.apply` on the instance table. Returns the mutated
instance table and the target positions. -/
def phishingApply (D : Dists) (df : List Row) (m : Rat) :
    Except PyErr (List Row × List Nat) :=
  let tgt := attackTargets "phishing" df
  let lam1 := safeMean (df.map Row.loginAttempts)
  let df1 := updRows tgt
    (fun j r => { r with loginAttempts := r.loginAttempts + m * (D.poisson lam1 j : Rat) }) df
  let lo2 := safeMean (df1.map Row.impactScore)
  let sc2 := safeStdSq (df1.map Row.impactScore)
  let df2 := updRows tgt
    (fun j r => { r with impactScore := r.impactScore + m * ((pyTrunc (D.normal lo2 sc2 j) : Int) : Rat) }) df1
  let lo3 := safeMean (df2.map Row.threatScore)
  let sc3 := safeStdSq (df2.map Row.threatScore)
  let df3 := updRows tgt
    (fun j r => { r with threatScore := r.threatScore + m * ((pyTrunc (D.normal lo3 sc3 j) : Int) : Rat) }) df2
  let df4 := updRows tgt (fun _ r => { r with attackType := "Phishing" }) df3
  .ok (df4, tgt)

/-- `MalwareAttack.apply`. -/
def malwareApply (D : Dists) (df : List Row) (m : Rat) :
    Except PyErr (List Row × List Nat) :=
  let tgt := attackTargets "malware" df
  let lam1 := safeMean (df.map Row.numFilesAccessed)
  let df1 := updRows tgt
    (fun j r => { r with numFilesAccessed := r.numFilesAccessed + m * (D.poisson lam1 j : Rat) }) df
  let lo2 := safeMean (df1.map Row.impactScore)
  let sc2 := safeStdSq (df1.map Row.impactScore)
  let df2 := updRows tgt
    (fun j r => { r with impactScore := r.impactScore + m * ((pyTrunc (D.normal lo2 sc2 j) : Int) : Rat) }) df1
  let lo3 := safeMean (df2.map Row.threatScore)
  let sc3 := safeStdSq (df2.map Row.threatScore)
  let df3 := updRows tgt
    (fun j r => { r with threatScore := r.threatScore + m * ((pyTrunc (D.normal lo3 sc3 j) : Int) : Rat) }) df2
  let df4 := updRows tgt (fun _ r => { r with attackType := "Malware" }) df3
  .ok (df4, tgt)

/-- `DDoSAttack.apply`. -/
def ddosApply (D : Dists) (df : List Row) (m : Rat) :
    Except PyErr (List Row × List Nat) :=
  let tgt := attackTargets "ddos" df
  let s1 := safeMean (df.map Row.sessionDuration)
  let df1 := updRows tgt
    (fun j r => { r with sessionDuration := r.sessionDuration + m * ((pyTrunc (D.exponential s1 j) : Int) : Rat) }) df
  let s2 := safeMean (df1.map Row.impactScore)
  let df2 := updRows tgt
    (fun j r => { r with impactScore := r.impactScore + m * ((pyTrunc (D.exponential s2 j) : Int) : Rat) }) df1
  let s3 := safeMean (df2.map Row.threatScore)
  let df3 := updRows tgt
    (fun j r => { r with threatScore := r.threatScore + m * ((pyTrunc (D.exponential s3 j) : Int) : Rat) }) df2
  let lam := safeMean (df3.map Row.loginAttempts)
  let df4 := updRows tgt
    (fun j r => { r with loginAttempts := r.loginAttempts + m * (D.poisson lam j : Rat) }) df3
  let df5 := updRows tgt
    (fun j r => { r with sourceIP := (D.ipPair j).1, destIP := (D.ipPair j).2 }) df4
  let df6 := updRows tgt (fun _ r => { r with attackType := "DDoS" }) df5
  .ok (df6, tgt)

/-- `DataLeakAttack.apply`.  Each `np.random.lognormal(log mean, log std)`
call validates its sigma argument: `log std < 0` — i.e. variance below 1,
including the default-`0.5` fallback — raises `ValueError("sigma < 0")`. -/
def dataLeakApply (D : Dists) (df : List Row) (m : Rat) :
    Except PyErr (List Row × List Nat) :=
  let tgt := attackTargets "data_leak" df
  let tm := safeMean (df.map Row.dataTransferMB)
  let tv := safeStdSq (df.map Row.dataTransferMB)
  if tv < 1 then .error (.valueError "sigma < 0")
  else
    let df1 := updRows tgt
      (fun j r => { r with dataTransferMB := r.dataTransferMB + m * D.lognormal tm tv j }) df
    let im := safeMean (df1.map Row.impactScore)
    let iv := safeStdSq (df1.map Row.impactScore)
    if iv < 1 then .error (.valueError "sigma < 0")
    else
      let df2 := updRows tgt
        (fun j r => { r with impactScore := r.impactScore + m * ((pyTrunc (D.lognormal im iv j) : Int) : Rat) }) df1
      let hm := safeMean (df2.map Row.threatScore)
      let hv := safeStdSq (df2.map Row.threatScore)
      if hv < 1 then .error (.valueError "sigma < 0")
      else
        let df3 := updRows tgt
          (fun j r => { r with threatScore := r.threatScore + m * ((pyTrunc (D.lognormal hm hv j) : Int) : Rat) }) df2
        let df4 := updRows tgt (fun _ r => { r with attackType := "Data Leak" }) df3
        .ok (df4, tgt)

/-- `InsiderThreatAttack.apply`. -/
def insiderApply (D : Dists) (df : List Row) (m : Rat) :
    Except PyErr (List Row × List Nat) :=
  let dfh := df.map addHourCol
  let tgt := attackTargets "insider" df
  let tm := safeMean (dfh.map Row.dataTransferMB)
  let tv := safeStdSq (dfh.map Row.dataTransferMB)
  let df1 := updRows tgt (fun _ r => { r with accessRestrictedFiles := true }) dfh
  if tv < 1 then .error (.valueError "sigma < 0")
  else
    let df2 := updRows tgt
      (fun j r => { r with dataTransferMB := r.dataTransferMB + m * D.lognormal tm tv j }) df1
    let im := safeMean (df2.map Row.impactScore)
    let iv := safeStdSq (df2.map Row.impactScore)
    if iv < 1 then .error (.valueError "sigma < 0")
    else
      let df3 := updRows tgt
        (fun j r => { r with impactScore := r.impactScore + m * ((pyTrunc (D.lognormal im iv j) : Int) : Rat) }) df2
      let hm := safeMean (df3.map Row.threatScore)
      let hv := safeStdSq (df3.map Row.threatScore)
      if hv < 1 then .error (.valueError "sigma < 0")
      else
        let df4 := updRows tgt
          (fun j r => { r with threatScore := r.threatScore + m * ((pyTrunc (D.lognormal hm hv j) : Int) : Rat) }) df3
        let df5 := updRows tgt (fun _ r => { r with attackType := "Insider Threat" }) df4
        .ok (df5, tgt)

/-- `RansomwareAttack.apply`. -/
def ransomwareApply (D : Dists) (df : List Row) (m : Rat) :
    Except PyErr (List Row × List Nat) :=
  let tgt := attackTargets "ransomware" df
  let c1 := safeMean (df.map Row.cpuUsage)
  let cv := safeStdSq (df.map Row.cpuUsage)
  let df1 := updRows tgt
    (fun j r => { r with cpuUsage := r.cpuUsage + m * D.normal c1 cv j }) df
  let mm := safeMean (df1.map Row.memUsage)
  let mv := safeStdSq (df1.map Row.memUsage)
  if mv < 1 then .error (.valueError "sigma < 0")
  else
    let df2 := updRows tgt
      (fun j r => { r with memUsage := r.memUsage + m * D.lognormal mm mv j }) df1
    let lam := safeMean (df2.map Row.numFilesAccessed)
    let df3 := updRows tgt
      (fun j r => { r with numFilesAccessed := r.numFilesAccessed + m * (D.poisson lam j : Rat) }) df2
    let im := safeMean (df3.map Row.impactScore)
    let iv := safeStdSq (df3.map Row.impactScore)
    if iv < 1 then .error (.valueError "sigma < 0")
    else
      let df4 := updRows tgt
        (fun j r => { r with impactScore := r.impactScore + m * ((pyTrunc (D.lognormal im iv j) : Int) : Rat) }) df3
      let hm := safeMean (df4.map Row.threatScore)
      let hv := safeStdSq (df4.map Row.threatScore)
      if hv < 1 then .error (.valueError "sigma < 0")
      else
        let df5 := updRows tgt
          (fun j r => { r with threatScore := r.threatScore + m * ((pyTrunc (D.lognormal hm hv j) : Int) : Rat) }) df4
        let df6 := updRows tgt (fun _ r => { r with attackType := "Ransomware" }) df5
        .ok (df6, tgt)

/-- The six supported attack kinds, in the order of `attack_map`. -/
def attackMap : List String :=
  ["phishing", "malware", "ddos", "data_leak", "insider", "ransomware"]

/-- Dispatch over the attack kind (`attack_map` lookup followed by
`attack_class(...).apply()`); an unknown kind is the
`Unknown attack type` ValueError of the callers. -/
def applyAttack (D : Dists) (kind : String) (df : List Row) (m : Rat) :
    Except PyErr (List Row × List Nat) :=
  match kind with
  | "phishing" => phishingApply D df m
  | "malware" => malwareApply D df m
  | "ddos" => ddosApply D df m
  | "data_leak" => dataLeakApply D df m
  | "insider" => insiderApply D df m
  | "ransomware" => ransomwareApply D df m
  | _ => .error (.valueError ("Unknown attack type: " ++ kind))

/-- `self.df.loc[targets.index]`: the rows of the mutated instance table at
the target positions — the value an attack's `apply` returns. -/
def subsetOf (out : List Row) (tgt : List Nat) : List Row :=
  tgt.map (fun i => rowGet out i)

/-- An attack's `apply()` return value (the modified subset of rows). -/
def applySubset (D : Dists) (kind : String) (df : List Row) (m : Rat) :
    Except PyErr (List Row) :=
  (applyAttack D kind df m).map (fun p => subsetOf p.1 p.2)

/-- The `Attack Type` label each kind writes on its subset. -/
def kindLabel : String → String
  | "phishing" => "Phishing"
  | "malware" => "Malware"
  | "ddos" => "DDoS"
  | "data_leak" => "Data Leak"
  | "insider" => "Insider Threat"
  | "ransomware" => "Ransomware"
  | _ => ""

/-- The heap of live DataFrame objects: a cell per table, `df.copy()`
allocates a fresh cell, in-place writes mutate a cell. -/
abbrev Heap := List (List Row)

def hGet (h : Heap) (i : Nat) : List Row := h.getD i []

def hSet (h : Heap) (i : Nat) (v : List Row) : Heap := h.set i v

/-- `full_df_with_anomalies["AnomalyInjected"] = False` on a fresh copy of
the input. -/
def initWorking (df : List Row) : List Row :=
  df.map (fun r => { r with anomalyInjected := false })

/-- The two `full_df_with_anomalies.loc[modified_indices, ...]` writes of
`run_selected_attacks`: flag the touched rows and stamp
`attack.capitalize()`. -/
def markRows (v : List Row) (tgt : List Nat) (kind : String) : List Row :=
  updRows tgt
    (fun _ r => { r with anomalyInjected := true, attackType := pyCapitalize kind }) v

/-- The `for attack in selected_attacks` loop of `run_selected_attacks`,
threading the heap, the verbose log and the accumulated per-kind subsets.
`fullRef` is the cell of `full_df_with_anomalies`. -/
def runLoop (D : Dists) (m : Rat) (vb : Bool) (fullRef : Nat) :
    List String → Heap → List String → List (List Row) →
    Heap × List String × Except PyErr (List (List Row))
  | [], h, lg, recs => (h, lg, .ok recs)
  | a :: rest, h, lg, recs =>
    let lg1 := if vb then lg ++ ["[+] Applying " ++ pyCapitalize a ++ " Attack"] else lg
    if a ∈ attackMap then
      let instRef := h.length
      let h1 := h ++ [hGet h fullRef]
      match applyAttack D a (hGet h1 instRef) m with
      | .error e => (h1, lg1, .error e)
      | .ok (instDf, tgt) =>
        let h2 := hSet h1 instRef instDf
        let subset := subsetOf instDf tgt
        if subset.isEmpty then
          let lg2 := if vb then lg1 ++ ["[-] No rows affected by " ++ pyCapitalize a ++ " Attack."] else lg1
          runLoop D m vb fullRef rest h2 lg2 recs
        else
          let h3 := hSet h2 fullRef (markRows (hGet h2 fullRef) tgt a)
          runLoop D m vb fullRef rest h3 lg1 (recs ++ [subset])
    else (h, lg1, .error (.valueError ("Unknown attack type: " ++ a)))

/-- `run_selected_attacks(df, anomaly_magnitude, selected_attacks, verbose)`.
The input table is a heap reference (`none` models `df is None`); the
outputs are the final heap, the printed log and the concatenation of the
per-kind subsets (an empty table with the full column schema when nothing
was touched). -/
def run_selected_attacks (D : Dists) (heap : Heap) (df : Option Nat) (m : Rat)
    (selected : List String) (verbose : Bool) :
    Heap × List String × Except PyErr (List Row) :=
  if selected.isEmpty then
    (heap, [], .error (.valueError "No attacks selected for simulation."))
  else
    match df with
    | none => (heap, [], .error (.valueError "Input DataFrame is None. Please check the file path."))
    | some r =>
      let fullRef := heap.length
      let h1 := heap ++ [initWorking (hGet heap r)]
      match runLoop D m verbose fullRef selected h1 [] [] with
      | (h2, lg, .error e) => (h2, lg, .error e)
      | (h2, lg, .ok recs) => (h2, lg, .ok recs.flatten)

/-- Parameters of `run_selected_attacks` as declared in the source
(name, has-default). -/
def runSelectedAttacksParams : List (String × Bool) :=
  [("df", false), ("anomaly_magnitude", false), ("selected_attacks", false), ("verbose", true)]

/-- Python positional-call binding: the required parameters left unbound when
`numArgs` positional arguments are supplied. -/
def missingRequired (params : List (String × Bool)) (numArgs : Nat) : List String :=
  ((params.drop numArgs).filter (fun p => !p.2)).map (fun p => p.1)

/-- The positional binding performed by the call
`run_selected_attacks(self.base_data, attack_list)` at
`attack_simulator.py:59`. -/
def line59Binding : List (String × String) :=
  List.zip (runSelectedAttacksParams.map (fun p => p.1)) ["self.base_data", "attack_list"]

/-- The TypeError message of the unbound required parameter at that call. -/
def rsMissingMsg : String :=
  "run_selected_attacks() missing 1 required positional argument: "
    ++ String.intercalate ", " (missingRequired runSelectedAttacksParams 2)

/-- `BaseAttackSimulator.run_multiple_attacks(attack_list)`: the call
`run_selected_attacks(self.base_data, attack_list)` supplies two positional
arguments against three required parameters, so Python raises a TypeError at
the call site, before the callee body (and hence any attack) runs. -/
def run_multiple_attacks (heap : Heap) (_baseRef : Nat) (_attackList : List String) :
    Heap × Except PyErr (List Row) :=
  (heap, .error (.typeError rsMissingMsg))

/-- The default `attack_sequence` of `simulate_coordinated_attack`. -/
def defaultAttackSequence : List (String × List String) :=
  [("initial", ["phishing", "insider"]),
   ("escalation", ["malware", "data_leak"]),
   ("critical", ["ddos", "ransomware"])]

def lookupD (assoc : List (String × List String)) (k : String) : List String :=
  match assoc.find? (fun p => p.1 == k) with
  | some p => p.2
  | none => []

/-- The `for phase in phases` loop of `simulate_coordinated_attack`: per
phase a fresh `BaseAttackSimulator` copies the combined table, its
`run_multiple_attacks` is invoked, the result rows are stamped with the
phase and accumulated. -/
def simCoordLoop (combinedRef : Nat) (attackSeq : List (String × List String)) :
    List String → Heap → List (List Row) → List (String × List String) →
    Heap × Except PyErr (List (List Row) × List (String × List String))
  | [], h, acc, lg => (h, .ok (acc, lg))
  | ph :: rest, h, acc, lg =>
    let attacks := lookupD attackSeq ph
    let simRef := h.length
    let h1 := h ++ [hGet h combinedRef]
    match run_multiple_attacks h1 simRef attacks with
    | (h2, .error e) => (h2, .error e)
    | (h2, .ok phaseDf) =>
      let tagged := phaseDf.map (fun r => { r with phase := ph })
      simCoordLoop combinedRef attackSeq rest h2 (acc ++ [tagged]) (lg ++ [(ph, attacks)])

/-- `simulate_coordinated_attack(base_data, phases, attack_sequence,
anomaly_magnitude)`.  `none` for the sequence selects the default mapping;
the final `pd.concat` on an empty accumulator raises ValueError. -/
def simulate_coordinated_attack (heap : Heap) (baseRef : Nat) (phases : List String)
    (attackSeqOpt : Option (List (String × List String))) (_m : Rat) :
    Heap × Except PyErr (List Row × List (String × List String)) :=
  let attackSeq := attackSeqOpt.getD defaultAttackSequence
  let combinedRef := heap.length
  let h1 := heap ++ [hGet heap baseRef]
  match simCoordLoop combinedRef attackSeq phases h1 [] [] with
  | (h2, .error e) => (h2, .error e)
  | (h2, .ok (acc, lg)) =>
    if acc.isEmpty then (h2, .error (.valueError "No objects to concatenate"))
    else (h2, .ok (acc.flatten, lg))

/-- Insertion sort of a rational column (for the pandas quantile). -/
def insertSorted (x : Rat) : List Rat → List Rat
  | [] => [x]
  | y :: ys => if x ≤ y then x :: y :: ys else y :: insertSorted x ys

def sortRat (l : List Rat) : List Rat := l.foldr insertSorted []

/-- `Series.quantile(q)` with the default linear interpolation:
position `q * (n - 1)` in the sorted column. -/
def quantileLinear (xs : List Rat) (q : Rat) : Rat :=
  match sortRat xs with
  | [] => 0
  | s =>
    let n := s.length
    let pos := q * ((n : Rat) - 1)
    let lo := pos.floor.toNat
    let fr := pos - (pos.floor : Rat)
    let a := s.getD lo 0
    let b := s.getD (min (lo + 1) (n - 1)) 0
    a + fr * (b - a)

/-- The body of `EarlyAnomalyDetectorClass.detect_early_anomalies`: write the
0/1 `Actual Anomaly` column from the IQR rule on the chosen column. -/
def detectFlagged (df : List Row) (col : Row → Rat) : List Row :=
  let q1 := quantileLinear (df.map col) (1/4)
  let q3 := quantileLinear (df.map col) (3/4)
  let iqr := q3 - q1
  df.map (fun r =>
    let flag : Nat := if col r < q1 - (3/2) * iqr ∨ q3 + (3/2) * iqr < col r then 1 else 0
    { r with actualAnomaly := some flag })

/-- `detect_early_anomalies`: the (anomalous, normal) partition of the
flagged table. -/
def detect_early_anomalies (df : List Row) (col : Row → Rat) : List Row × List Row :=
  let fl := detectFlagged df col
  (fl.filter (fun r => r.actualAnomaly == some 1),
   fl.filter (fun r => r.actualAnomaly == some 0))

/-- The detector through the heap: `EarlyAnomalyDetectorClass.__init__`
copies the input, `detect_early_anomalies` writes the flag column into the
instance copy. -/
def earlyDetectorHeap (heap : Heap) (dfRef : Nat) (col : Row → Rat) :
    Heap × List Row × List Row :=
  let instRef := heap.length
  let h1 := heap ++ [hGet heap dfRef]
  let fl := detectFlagged (hGet h1 instRef) col
  let h2 := hSet h1 instRef fl
  (h2, fl.filter (fun r => r.actualAnomaly == some 1),
   fl.filter (fun r => r.actualAnomaly == some 0))

/-- A single attack through the heap, as `BaseAttackSimulator.run_attack`
drives it: validate the kind, `BaseAttack.__init__` copies the table,
`apply` mutates the copy and returns the subset. -/
def attackApplyHeap (D : Dists) (kind : String) (heap : Heap) (dfRef : Nat) (m : Rat) :
    Heap × Except PyErr (List Row) :=
  if kind ∈ attackMap then
    let instRef := heap.length
    let h1 := heap ++ [hGet heap dfRef]
    match applyAttack D kind (hGet h1 instRef) m with
    | .error e => (h1, .error e)
    | .ok (instDf, tgt) => (hSet h1 instRef instDf, .ok (subsetOf instDf tgt))
  else (heap, .error (.valueError ("Unknown attack type: " ++ kind)))

/-- Mean absolute perturbation an attack applied to a column over its
target rows (zero when no rows were targeted). -/
def meanAbsDiff (df out : List Row) (c : Col) (tgt : List Nat) : Rat :=
  (tgt.map (fun i => |colFn c (rowGet out i) - colFn c (rowGet df i)|)).sum
    / (tgt.length : Rat)

/-- The numeric columns each attack kind perturbs. -/
def targetedCols : String → List Col
  | "phishing" => [.login, .impact, .threat]
  | "malware" => [.files, .impact, .threat]
  | "ddos" => [.session, .impact, .threat, .login]
  | "data_leak" => [.transfer, .impact, .threat]
  | "insider" => [.transfer, .impact, .threat]
  | "ransomware" => [.cpu, .mem, .files, .impact, .threat]
  | _ => []

/-- Whether a kind's lognormal sigma validations all pass on a table:
`log std ≥ 0`, i.e. sample variance at least 1, on each column the kind
feeds to `np.random.lognormal` (vacuous for the other kinds). -/
def sigmaOKb (kind : String) (df : List Row) : Bool :=
  if kind == "data_leak" || kind == "insider" then
    decide (1 ≤ safeStdSq (df.map Row.dataTransferMB))
      && decide (1 ≤ safeStdSq (df.map Row.impactScore))
      && decide (1 ≤ safeStdSq (df.map Row.threatScore))
  else if kind == "ransomware" then
    decide (1 ≤ safeStdSq (df.map Row.memUsage))
      && decide (1 ≤ safeStdSq (df.map Row.impactScore))
      && decide (1 ≤ safeStdSq (df.map Row.threatScore))
  else true

/-- The caller-table row with the two bookkeeping marks of
`run_selected_attacks` (the injected-anomaly flag and the attack label)
erased. -/
def eraseMarks (r : Row) : Row := { r with anomalyInjected := false, attackType := "" }

/-- The (magnitude-independent) noise term an attack kind adds, scaled by
the magnitude, to a targeted column of the row at target position `j`:
the distribution parameters are the statistics of the original table's
columns, since each column's parameters are read before that column is
perturbed and no column is perturbed twice. -/
def kindNoise (D : Dists) (kind : String) (df : List Row) (c : Col) (j : Nat) : Rat :=
  match kind, c with
  | "phishing", .login => (D.poisson (safeMean (df.map Row.loginAttempts)) j : Rat)
  | "phishing", .impact =>
      ((pyTrunc (D.normal (safeMean (df.map Row.impactScore)) (safeStdSq (df.map Row.impactScore)) j) : Int) : Rat)
  | "phishing", .threat =>
      ((pyTrunc (D.normal (safeMean (df.map Row.threatScore)) (safeStdSq (df.map Row.threatScore)) j) : Int) : Rat)
  | "malware", .files => (D.poisson (safeMean (df.map Row.numFilesAccessed)) j : Rat)
  | "malware", .impact =>
      ((pyTrunc (D.normal (safeMean (df.map Row.impactScore)) (safeStdSq (df.map Row.impactScore)) j) : Int) : Rat)
  | "malware", .threat =>
      ((pyTrunc (D.normal (safeMean (df.map Row.threatScore)) (safeStdSq (df.map Row.threatScore)) j) : Int) : Rat)
  | "ddos", .session => ((pyTrunc (D.exponential (safeMean (df.map Row.sessionDuration)) j) : Int) : Rat)
  | "ddos", .impact => ((pyTrunc (D.exponential (safeMean (df.map Row.impactScore)) j) : Int) : Rat)
  | "ddos", .threat => ((pyTrunc (D.exponential (safeMean (df.map Row.threatScore)) j) : Int) : Rat)
  | "ddos", .login => (D.poisson (safeMean (df.map Row.loginAttempts)) j : Rat)
  | "data_leak", .transfer =>
      D.lognormal (safeMean (df.map Row.dataTransferMB)) (safeStdSq (df.map Row.dataTransferMB)) j
  | "data_leak", .impact =>
      ((pyTrunc (D.lognormal (safeMean (df.map Row.impactScore)) (safeStdSq (df.map Row.impactScore)) j) : Int) : Rat)
  | "data_leak", .threat =>
      ((pyTrunc (D.lognormal (safeMean (df.map Row.threatScore)) (safeStdSq (df.map Row.threatScore)) j) : Int) : Rat)
  | "insider", .transfer =>
      D.lognormal (safeMean (df.map Row.dataTransferMB)) (safeStdSq (df.map Row.dataTransferMB)) j
  | "insider", .impact =>
      ((pyTrunc (D.lognormal (safeMean (df.map Row.impactScore)) (safeStdSq (df.map Row.impactScore)) j) : Int) : Rat)
  | "insider", .threat =>
      ((pyTrunc (D.lognormal (safeMean (df.map Row.threatScore)) (safeStdSq (df.map Row.threatScore)) j) : Int) : Rat)
  | "ransomware", .cpu =>
      D.normal (safeMean (df.map Row.cpuUsage)) (safeStdSq (df.map Row.cpuUsage)) j
  | "ransomware", .mem =>
      D.lognormal (safeMean (df.map Row.memUsage)) (safeStdSq (df.map Row.memUsage)) j
  | "ransomware", .files => (D.poisson (safeMean (df.map Row.numFilesAccessed)) j : Rat)
  | "ransomware", .impact =>
      ((pyTrunc (D.lognormal (safeMean (df.map Row.impactScore)) (safeStdSq (df.map Row.impactScore)) j) : Int) : Rat)
  | "ransomware", .threat =>
      ((pyTrunc (D.lognormal (safeMean (df.map Row.threatScore)) (safeStdSq (df.map Row.threatScore)) j) : Int) : Rat)
  | _, _ => 0

/-- A 20-row table whose every row matches the ransomware selection
predicate, with relevant column variances above 1. -/
def df20SV : List Row := (List.range 20).map (fun i =>
  { category := "System Vulnerability", memUsage := (i : Rat), impactScore := (i : Rat),
    threatScore := (i : Rat) })

/-- A 20-row table whose every row matches the phishing selection predicate. -/
def df20AC : List Row := (List.range 20).map (fun _ => { category := "Access Control" })

/-- A 5-row Network Security table with a low threat level. -/
def df5NS : List Row := (List.range 5).map (fun _ =>
  { category := "Network Security", threatLevel := "Low" })

/-- A 3-row Data Breach table with a constant transfer column (sample
variance 0, so the lognormal sigma falls back to log 0.5 < 0). -/
def df3DB : List Row := (List.range 3).map (fun _ =>
  { category := "Data Breach", dataTransferMB := 5 })

/-- The IQR outlier rule of the early anomaly detector, as a predicate on a
row given the table's column statistics. -/
def iqrOutside (df : List Row) (col : Row → Rat) (r : Row) : Bool :=
  let q1 := quantileLinear (df.map col) (1/4)
  let q3 := quantileLinear (df.map col) (3/4)
  let iqr := q3 - q1
  decide (col r < q1 - (3/2) * iqr ∨ q3 + (3/2) * iqr < col r)

/-- Write the detector's 0/1 flag on a row. -/
def setFlag (k : Nat) (r : Row) : Row := { r with actualAnomaly := some k }

/-- Remove the detector's flag column from a row. -/
def eraseFlag (r : Row) : Row := { r with actualAnomaly := none }

/-- The pair a concrete ddos run returns (used to instantiate theorems on a
concrete table). -/
def c5OutPair : List Row × List Nat :=
  (applyAttack idDists "ddos" df5NS (3/2)).toOption.getD ([], [])

theorem getD_append_lt {α : Type} (l l₂ : List α) (d : α) (i : Nat) (h : i < l.length) :
    (l ++ l₂).getD i d = l.getD i d := by
  induction l generalizing i with
  | nil => simp at h
  | cons a t ih =>
    cases i with
    | zero => rfl
    | succ k => simpa using ih k (by simpa using h)

theorem getD_append_len {α : Type} (l l₂ : List α) (d : α) :
    (l ++ l₂).getD l.length d = l₂.getD 0 d := by
  induction l with
  | nil => rfl
  | cons a t ih => simpa using ih

theorem getD_set_ne {α : Type} (l : List α) (j i : Nat) (v : α) (d : α) (h : i ≠ j) :
    (l.set j v).getD i d = l.getD i d := by
  induction l generalizing i j with
  | nil => rfl
  | cons a t ih =>
    cases j with
    | zero => cases i with
      | zero => exact absurd rfl h
      | succ k => rfl
    | succ jj => cases i with
      | zero => rfl
      | succ k => simpa using ih jj k (fun he => h (by rw [he]))

theorem getD_set_self {α : Type} (l : List α) (j : Nat) (v : α) (d : α) (h : j < l.length) :
    (l.set j v).getD j d = v := by
  induction l generalizing j with
  | nil => simp at h
  | cons a t ih =>
    cases j with
    | zero => rfl
    | succ k => simpa using ih k (by simpa using h)

theorem getD_map_lt (f : Row → Row) (df : List Row) (i : Nat) (h : i < df.length) :
    rowGet (df.map f) i = f (rowGet df i) := by
  unfold rowGet
  induction df generalizing i with
  | nil => simp at h
  | cons a t ih =>
    cases i with
    | zero => rfl
    | succ k => simpa using ih k (by simpa using h)

theorem hGet_append_lt (h : Heap) (x : List Row) (i : Nat) (hi : i < h.length) :
    hGet (h ++ [x]) i = hGet h i := getD_append_lt h [x] [] i hi

theorem hGet_append_len (h : Heap) (x : List Row) : hGet (h ++ [x]) h.length = x :=
  getD_append_len h [x] []

theorem hGet_set_ne (h : Heap) (j i : Nat) (v : List Row) (hij : i ≠ j) :
    hGet (hSet h j v) i = hGet h i := getD_set_ne h j i v [] hij

theorem updRowsGo_length (tgt : List Nat) (f : Nat → Row → Row) (df : List Row) :
    ∀ n, (updRowsGo tgt f n df).length = df.length := by
  induction df with
  | nil => intro n; rfl
  | cons a t ih => intro n; simpa [updRowsGo] using ih (n + 1)

theorem updRows_length (tgt : List Nat) (f : Nat → Row → Row) (df : List Row) :
    (updRows tgt f df).length = df.length := updRowsGo_length tgt f df 0

theorem updRowsGo_map {α : Type} (tgt : List Nat) (f : Nat → Row → Row) (g : Row → α)
    (hg : ∀ j r, g (f j r) = g r) (df : List Row) :
    ∀ n, (updRowsGo tgt f n df).map g = df.map g := by
  induction df with
  | nil => intro n; rfl
  | cons a t ih =>
    intro n
    by_cases hmem : n ∈ tgt <;> simp [updRowsGo, hmem, hg, ih (n + 1)]

theorem updRows_map {α : Type} (tgt : List Nat) (f : Nat → Row → Row) (g : Row → α)
    (hg : ∀ j r, g (f j r) = g r) (df : List Row) :
    (updRows tgt f df).map g = df.map g := updRowsGo_map tgt f g hg df 0

theorem rowGet_updRowsGo (tgt : List Nat) (f : Nat → Row → Row) (df : List Row) :
    ∀ n k, k < df.length →
      (updRowsGo tgt f n df).getD k default =
        (if (n + k) ∈ tgt then f (tgt.indexOf (n + k)) (df.getD k default)
         else df.getD k default) := by
  induction df with
  | nil => intro n k hk; simp at hk
  | cons a t ih =>
    intro n k hk
    cases k with
    | zero => simp [updRowsGo]
    | succ kk =>
      have := ih (n + 1) kk (by simpa using hk)
      simpa [updRowsGo, Nat.add_assoc, Nat.add_comm 1 kk] using this

theorem rowGet_updRows_mem (tgt : List Nat) (f : Nat → Row → Row) (df : List Row)
    (i : Nat) (hi : i ∈ tgt) (hl : i < df.length) :
    rowGet (updRows tgt f df) i = f (tgt.indexOf i) (rowGet df i) := by
  unfold rowGet updRows
  rw [rowGet_updRowsGo tgt f df 0 i hl]
  simp [hi]

theorem mem_filterIdx (p : Row → Bool) (df : List Row) (i : Nat) (hi : i ∈ filterIdx p df) :
    i < df.length ∧ p (rowGet df i) = true := by
  unfold filterIdx at hi
  have h1 := List.mem_filter.mp hi
  exact ⟨List.mem_range.mp h1.1, h1.2⟩

theorem attackTargets_sub (kind : String) (df : List Row) :
    ∀ i ∈ attackTargets kind df, i ∈ attackFiltered kind df := by
  intro i hi
  exact List.mem_of_mem_take hi

theorem attackFiltered_lt (kind : String) (df : List Row) (i : Nat)
    (hi : i ∈ attackFiltered kind df) : i < df.length := by
  unfold attackFiltered at hi
  by_cases hk : kind == "insider"
  · rw [if_pos hk] at hi
    have := (mem_filterIdx _ _ i hi).1
    simpa using this
  · rw [if_neg hk] at hi
    exact (mem_filterIdx _ _ i hi).1

theorem attackTargets_lt (kind : String) (df : List Row) (i : Nat)
    (hi : i ∈ attackTargets kind df) : i < df.length :=
  attackFiltered_lt kind df i (attackTargets_sub kind df i hi)

theorem roundHalfEven_pos (q : Rat) (h : 1/2 < q) : 1 ≤ roundHalfEven q := by
  have hq : (0 : Rat) ≤ q := le_trans (by norm_num) (le_of_lt h)
  have hfl : (0 : Int) ≤ q.floor := Rat.le_floor.mpr (by exact_mod_cast hq)
  simp only [roundHalfEven]
  rcases eq_or_lt_of_le hfl with hz | hpos
  · rw [← hz]
    have hr1 : ¬(q - ((0 : Int) : Rat) < 1/2) := by
      push_neg; simpa using le_of_lt h
    have hr2 : 1/2 < q - ((0 : Int) : Rat) := by simpa using h
    rw [if_neg hr1, if_pos hr2]
    omega
  · have h1 : (1 : Int) ≤ q.floor := hpos
    split_ifs <;> omega

theorem attackTargets_len (kind : String) (df : List Row) :
    (attackTargets kind df).length =
      min (sampleCount (kindFrac kind) (attackFiltered kind df).length)
        (attackFiltered kind df).length := by
  unfold attackTargets
  simp [List.length_take]

theorem rowGet_updRows (tgt : List Nat) (f : Nat → Row → Row) (df : List Row) (i : Nat) :
    rowGet (updRows tgt f df) i =
      if i < df.length ∧ i ∈ tgt then f (tgt.indexOf i) (rowGet df i) else rowGet df i := by
  by_cases hl : i < df.length
  · by_cases hi : i ∈ tgt
    · rw [if_pos ⟨hl, hi⟩]
      exact rowGet_updRows_mem tgt f df i hi hl
    · rw [if_neg (fun hc => hi hc.2)]
      unfold rowGet updRows
      rw [rowGet_updRowsGo tgt f df 0 i hl]
      simp [hi]
  · rw [if_neg (fun hc => hl hc.1)]
    unfold rowGet
    rw [List.getD_eq_default, List.getD_eq_default]
    · omega
    · rw [updRows_length]; omega

theorem phishing_out (D : Dists) (df : List Row) (m : Rat) (out : List Row) (tgt : List Nat)
    (hok : phishingApply D df m = .ok (out, tgt)) :
    tgt = attackTargets "phishing" df ∧
    ∀ i ∈ tgt, rowGet out i =
      { rowGet df i with
        loginAttempts := (rowGet df i).loginAttempts
          + m * kindNoise D "phishing" df .login (tgt.indexOf i),
        impactScore := (rowGet df i).impactScore
          + m * kindNoise D "phishing" df .impact (tgt.indexOf i),
        threatScore := (rowGet df i).threatScore
          + m * kindNoise D "phishing" df .threat (tgt.indexOf i),
        attackType := "Phishing" } := by
  simp only [phishingApply, Except.ok.injEq, Prod.mk.injEq] at hok
  obtain ⟨ho, ht⟩ := hok
  subst ho; subst ht
  refine ⟨rfl, ?_⟩
  intro i hi
  have hl := attackTargets_lt "phishing" df i hi
  simp [updRows_map, rowGet_updRows, updRows_length, hl, hi, kindNoise]

theorem malware_out (D : Dists) (df : List Row) (m : Rat) (out : List Row) (tgt : List Nat)
    (hok : malwareApply D df m = .ok (out, tgt)) :
    tgt = attackTargets "malware" df ∧
    ∀ i ∈ tgt, rowGet out i =
      { rowGet df i with
        numFilesAccessed := (rowGet df i).numFilesAccessed
          + m * kindNoise D "malware" df .files (tgt.indexOf i),
        impactScore := (rowGet df i).impactScore
          + m * kindNoise D "malware" df .impact (tgt.indexOf i),
        threatScore := (rowGet df i).threatScore
          + m * kindNoise D "malware" df .threat (tgt.indexOf i),
        attackType := "Malware" } := by
  simp only [malwareApply, Except.ok.injEq, Prod.mk.injEq] at hok
  obtain ⟨ho, ht⟩ := hok
  subst ho; subst ht
  refine ⟨rfl, ?_⟩
  intro i hi
  have hl := attackTargets_lt "malware" df i hi
  simp [updRows_map, rowGet_updRows, updRows_length, hl, hi, kindNoise]

theorem ddos_out (D : Dists) (df : List Row) (m : Rat) (out : List Row) (tgt : List Nat)
    (hok : ddosApply D df m = .ok (out, tgt)) :
    tgt = attackTargets "ddos" df ∧
    ∀ i ∈ tgt, rowGet out i =
      { rowGet df i with
        sessionDuration := (rowGet df i).sessionDuration
          + m * kindNoise D "ddos" df .session (tgt.indexOf i),
        impactScore := (rowGet df i).impactScore
          + m * kindNoise D "ddos" df .impact (tgt.indexOf i),
        threatScore := (rowGet df i).threatScore
          + m * kindNoise D "ddos" df .threat (tgt.indexOf i),
        loginAttempts := (rowGet df i).loginAttempts
          + m * kindNoise D "ddos" df .login (tgt.indexOf i),
        sourceIP := (D.ipPair (tgt.indexOf i)).1,
        destIP := (D.ipPair (tgt.indexOf i)).2,
        attackType := "DDoS" } := by
  simp only [ddosApply, Except.ok.injEq, Prod.mk.injEq] at hok
  obtain ⟨ho, ht⟩ := hok
  subst ho; subst ht
  refine ⟨rfl, ?_⟩
  intro i hi
  have hl := attackTargets_lt "ddos" df i hi
  simp [updRows_map, rowGet_updRows, updRows_length, hl, hi, kindNoise]

theorem dataLeak_out (D : Dists) (df : List Row) (m : Rat) (out : List Row) (tgt : List Nat)
    (hok : dataLeakApply D df m = .ok (out, tgt)) :
    tgt = attackTargets "data_leak" df ∧
    ∀ i ∈ tgt, rowGet out i =
      { rowGet df i with
        dataTransferMB := (rowGet df i).dataTransferMB
          + m * kindNoise D "data_leak" df .transfer (tgt.indexOf i),
        impactScore := (rowGet df i).impactScore
          + m * kindNoise D "data_leak" df .impact (tgt.indexOf i),
        threatScore := (rowGet df i).threatScore
          + m * kindNoise D "data_leak" df .threat (tgt.indexOf i),
        attackType := "Data Leak" } := by
  simp only [dataLeakApply] at hok
  split at hok
  · exact absurd hok (by simp)
  · split at hok
    · exact absurd hok (by simp)
    · split at hok
      · exact absurd hok (by simp)
      · simp only [Except.ok.injEq, Prod.mk.injEq] at hok
        obtain ⟨ho, ht⟩ := hok
        subst ho; subst ht
        refine ⟨rfl, ?_⟩
        intro i hi
        have hl := attackTargets_lt "data_leak" df i hi
        simp [updRows_map, rowGet_updRows, updRows_length, hl, hi, kindNoise]

theorem mapAddHour_col {α : Type} (g : Row → α) (hg : ∀ r, g (addHourCol r) = g r)
    (df : List Row) : (df.map addHourCol).map g = df.map g := by
  rw [List.map_map]
  exact List.map_congr_left (fun r _ => hg r)

theorem comp_addHour_transfer : Row.dataTransferMB ∘ addHourCol = Row.dataTransferMB :=
  funext (fun _ => rfl)

theorem comp_addHour_impact : Row.impactScore ∘ addHourCol = Row.impactScore :=
  funext (fun _ => rfl)

theorem comp_addHour_threat : Row.threatScore ∘ addHourCol = Row.threatScore :=
  funext (fun _ => rfl)

theorem insider_out (D : Dists) (df : List Row) (m : Rat) (out : List Row) (tgt : List Nat)
    (hok : insiderApply D df m = .ok (out, tgt)) :
    tgt = attackTargets "insider" df ∧
    ∀ i ∈ tgt, rowGet out i =
      { rowGet df i with
        hourCol := some (rowGet df i).timestampHour,
        accessRestrictedFiles := true,
        dataTransferMB := (rowGet df i).dataTransferMB
          + m * kindNoise D "insider" df .transfer (tgt.indexOf i),
        impactScore := (rowGet df i).impactScore
          + m * kindNoise D "insider" df .impact (tgt.indexOf i),
        threatScore := (rowGet df i).threatScore
          + m * kindNoise D "insider" df .threat (tgt.indexOf i),
        attackType := "Insider Threat" } := by
  simp only [insiderApply] at hok
  split at hok
  · exact absurd hok (by simp)
  · split at hok
    · exact absurd hok (by simp)
    · split at hok
      · exact absurd hok (by simp)
      · simp only [Except.ok.injEq, Prod.mk.injEq] at hok
        obtain ⟨ho, ht⟩ := hok
        subst ho; subst ht
        refine ⟨rfl, ?_⟩
        intro i hi
        have hl := attackTargets_lt "insider" df i hi
        have hml : i < (df.map addHourCol).length := by simpa using hl
        simp [updRows_map, rowGet_updRows, updRows_length, hl, hi, kindNoise,
          mapAddHour_col, getD_map_lt, hml, addHourCol, comp_addHour_transfer,
          comp_addHour_impact, comp_addHour_threat]

theorem ransomware_out (D : Dists) (df : List Row) (m : Rat) (out : List Row) (tgt : List Nat)
    (hok : ransomwareApply D df m = .ok (out, tgt)) :
    tgt = attackTargets "ransomware" df ∧
    ∀ i ∈ tgt, rowGet out i =
      { rowGet df i with
        cpuUsage := (rowGet df i).cpuUsage
          + m * kindNoise D "ransomware" df .cpu (tgt.indexOf i),
        memUsage := (rowGet df i).memUsage
          + m * kindNoise D "ransomware" df .mem (tgt.indexOf i),
        numFilesAccessed := (rowGet df i).numFilesAccessed
          + m * kindNoise D "ransomware" df .files (tgt.indexOf i),
        impactScore := (rowGet df i).impactScore
          + m * kindNoise D "ransomware" df .impact (tgt.indexOf i),
        threatScore := (rowGet df i).threatScore
          + m * kindNoise D "ransomware" df .threat (tgt.indexOf i),
        attackType := "Ransomware" } := by
  simp only [ransomwareApply] at hok
  split at hok
  · exact absurd hok (by simp)
  · split at hok
    · exact absurd hok (by simp)
    · split at hok
      · exact absurd hok (by simp)
      · simp only [Except.ok.injEq, Prod.mk.injEq] at hok
        obtain ⟨ho, ht⟩ := hok
        subst ho; subst ht
        refine ⟨rfl, ?_⟩
        intro i hi
        have hl := attackTargets_lt "ransomware" df i hi
        simp [updRows_map, rowGet_updRows, updRows_length, hl, hi, kindNoise]

theorem apply_tgt (D : Dists) (df : List Row) (m : Rat) (kind : String)
    (out : List Row) (tgt : List Nat) (hk : kind ∈ attackMap)
    (hok : applyAttack D kind df m = .ok (out, tgt)) :
    tgt = attackTargets kind df := by
  simp only [attackMap, List.mem_cons, List.not_mem_nil, or_false] at hk
  rcases hk with rfl | rfl | rfl | rfl | rfl | rfl
  · exact (phishing_out D df m out tgt hok).1
  · exact (malware_out D df m out tgt hok).1
  · exact (ddos_out D df m out tgt hok).1
  · exact (dataLeak_out D df m out tgt hok).1
  · exact (insider_out D df m out tgt hok).1
  · exact (ransomware_out D df m out tgt hok).1

theorem apply_label (D : Dists) (df : List Row) (m : Rat) (kind : String)
    (out : List Row) (tgt : List Nat) (hk : kind ∈ attackMap)
    (hok : applyAttack D kind df m = .ok (out, tgt)) :
    ∀ i ∈ tgt, (rowGet out i).attackType = kindLabel kind := by
  simp only [attackMap, List.mem_cons, List.not_mem_nil, or_false] at hk
  rcases hk with rfl | rfl | rfl | rfl | rfl | rfl
  · intro i hi; rw [(phishing_out D df m out tgt hok).2 i hi]; rfl
  · intro i hi; rw [(malware_out D df m out tgt hok).2 i hi]; rfl
  · intro i hi; rw [(ddos_out D df m out tgt hok).2 i hi]; rfl
  · intro i hi; rw [(dataLeak_out D df m out tgt hok).2 i hi]; rfl
  · intro i hi; rw [(insider_out D df m out tgt hok).2 i hi]; rfl
  · intro i hi; rw [(ransomware_out D df m out tgt hok).2 i hi]; rfl

theorem apply_diff (D : Dists) (df : List Row) (m : Rat) (kind : String)
    (out : List Row) (tgt : List Nat) (hk : kind ∈ attackMap)
    (hok : applyAttack D kind df m = .ok (out, tgt)) :
    ∀ i ∈ tgt, ∀ c ∈ targetedCols kind,
      colFn c (rowGet out i) - colFn c (rowGet df i)
        = m * kindNoise D kind df c (tgt.indexOf i) := by
  simp only [attackMap, List.mem_cons, List.not_mem_nil, or_false] at hk
  rcases hk with rfl | rfl | rfl | rfl | rfl | rfl
  · intro i hi c hc
    rw [(phishing_out D df m out tgt hok).2 i hi]
    simp only [targetedCols, List.mem_cons, List.not_mem_nil, or_false] at hc
    rcases hc with rfl | rfl | rfl <;> simp [colFn]
  · intro i hi c hc
    rw [(malware_out D df m out tgt hok).2 i hi]
    simp only [targetedCols, List.mem_cons, List.not_mem_nil, or_false] at hc
    rcases hc with rfl | rfl | rfl <;> simp [colFn]
  · intro i hi c hc
    rw [(ddos_out D df m out tgt hok).2 i hi]
    simp only [targetedCols, List.mem_cons, List.not_mem_nil, or_false] at hc
    rcases hc with rfl | rfl | rfl | rfl <;> simp [colFn]
  · intro i hi c hc
    rw [(dataLeak_out D df m out tgt hok).2 i hi]
    simp only [targetedCols, List.mem_cons, List.not_mem_nil, or_false] at hc
    rcases hc with rfl | rfl | rfl <;> simp [colFn]
  · intro i hi c hc
    rw [(insider_out D df m out tgt hok).2 i hi]
    simp only [targetedCols, List.mem_cons, List.not_mem_nil, or_false] at hc
    rcases hc with rfl | rfl | rfl <;> simp [colFn]
  · intro i hi c hc
    rw [(ransomware_out D df m out tgt hok).2 i hi]
    simp only [targetedCols, List.mem_cons, List.not_mem_nil, or_false] at hc
    rcases hc with rfl | rfl | rfl | rfl | rfl <;> simp [colFn]

theorem isOk_exists {α : Type} {e : Except PyErr α} (h : e.isOk = true) :
    ∃ p, e = .ok p := by
  cases e with
  | ok p => exact ⟨p, rfl⟩
  | error q => simp [Except.isOk, Except.toBool] at h

theorem apply_isOk (D : Dists) (df : List Row) (m : Rat) (kind : String)
    (hk : kind ∈ attackMap) (hs : sigmaOKb kind df = true) :
    (applyAttack D kind df m).isOk = true := by
  simp only [attackMap, List.mem_cons, List.not_mem_nil, or_false] at hk
  rcases hk with rfl | rfl | rfl | rfl | rfl | rfl
  · rfl
  · rfl
  · rfl
  · simp [sigmaOKb] at hs
    simp [applyAttack, dataLeakApply, updRows_map, not_lt.mpr hs.1.1,
      not_lt.mpr hs.1.2, not_lt.mpr hs.2, Except.isOk, Except.toBool]
  · simp [sigmaOKb] at hs
    simp [applyAttack, insiderApply, updRows_map, mapAddHour_col, comp_addHour_transfer,
      comp_addHour_impact, comp_addHour_threat, not_lt.mpr hs.1.1,
      not_lt.mpr hs.1.2, not_lt.mpr hs.2, Except.isOk, Except.toBool]
  · simp [sigmaOKb] at hs
    simp [applyAttack, ransomwareApply, updRows_map, not_lt.mpr hs.1.1,
      not_lt.mpr hs.1.2, not_lt.mpr hs.2, Except.isOk, Except.toBool]

theorem runLoop_len (D : Dists) (m : Rat) (vb : Bool) (fullRef : Nat) :
    ∀ (sel : List String) (h : Heap) (lg : List String) (recs : List (List Row)),
      h.length ≤ (runLoop D m vb fullRef sel h lg recs).1.length := by
  intro sel
  induction sel with
  | nil => intro h lg recs; exact le_refl _
  | cons a rest ih =>
    intro h lg recs
    by_cases hk : a ∈ attackMap
    · cases happ : applyAttack D a (hGet (h ++ [hGet h fullRef]) h.length) m with
      | error e =>
        simp only [runLoop, if_pos hk, happ]
        simp
      | ok p =>
        obtain ⟨instDf, tgt⟩ := p
        by_cases hemp : (subsetOf instDf tgt).isEmpty
        · simp only [runLoop, if_pos hk, happ, hemp, if_pos]
          calc h.length ≤ (hSet (h ++ [hGet h fullRef]) h.length instDf).length := by
                simp [hSet]
            _ ≤ _ := ih _ _ _
        · simp only [runLoop, if_pos hk, happ, hemp]
          simp only [Bool.false_eq_true, if_false]
          calc h.length
              ≤ (hSet (hSet (h ++ [hGet h fullRef]) h.length instDf) fullRef
                  (markRows (hGet (hSet (h ++ [hGet h fullRef]) h.length instDf) fullRef) tgt a)).length := by
                simp [hSet]
            _ ≤ _ := ih _ _ _
    · simp only [runLoop, if_pos, hk]
      simp

theorem hGet_set_self (h : Heap) (j : Nat) (v : List Row) (hj : j < h.length) :
    hGet (hSet h j v) j = v := getD_set_self h j v [] hj

theorem markRows_eraseMarks (v : List Row) (tgt : List Nat) (a : String) :
    (markRows v tgt a).map eraseMarks = v.map eraseMarks := by
  unfold markRows
  apply updRows_map
  intro j r
  rfl

theorem runLoop_preserve (D : Dists) (m : Rat) (vb : Bool) (fullRef : Nat) :
    ∀ (sel : List String) (h : Heap) (lg : List String) (recs : List (List Row)) (i : Nat),
      i < fullRef → fullRef < h.length →
      hGet (runLoop D m vb fullRef sel h lg recs).1 i = hGet h i := by
  intro sel
  induction sel with
  | nil => intro h lg recs i _ _; rfl
  | cons a rest ih =>
    intro h lg recs i hif hfh
    have hih : i < h.length := lt_trans hif hfh
    by_cases hk : a ∈ attackMap
    · cases happ : applyAttack D a (hGet (h ++ [hGet h fullRef]) h.length) m with
      | error e =>
        simp only [runLoop, if_pos hk, happ]
        exact hGet_append_lt h _ i hih
      | ok p =>
        obtain ⟨instDf, tgt⟩ := p
        have e2 : hGet (hSet (h ++ [hGet h fullRef]) h.length instDf) i = hGet h i := by
          rw [hGet_set_ne _ _ _ _ (by omega)]
          exact hGet_append_lt h _ i hih
        have l2 : fullRef < (hSet (h ++ [hGet h fullRef]) h.length instDf).length := by
          simp [hSet]; omega
        by_cases hemp : (subsetOf instDf tgt).isEmpty
        · simp only [runLoop, if_pos hk, happ, hemp, if_pos]
          rw [ih _ _ _ i hif l2]
          exact e2
        · simp only [runLoop, if_pos hk, happ, hemp, Bool.false_eq_true, if_false]
          rw [ih _ _ _ i hif (by simp [hSet] at l2 ⊢; omega)]
          rw [hGet_set_ne _ _ _ _ (by omega)]
          exact e2
    · simp only [runLoop, if_pos, hk]
      simp

theorem runLoop_marks (D : Dists) (m : Rat) (vb : Bool) (fullRef : Nat) :
    ∀ (sel : List String) (h : Heap) (lg : List String) (recs : List (List Row)),
      fullRef < h.length →
      (hGet (runLoop D m vb fullRef sel h lg recs).1 fullRef).map eraseMarks
        = (hGet h fullRef).map eraseMarks := by
  intro sel
  induction sel with
  | nil => intro h lg recs _; rfl
  | cons a rest ih =>
    intro h lg recs hfh
    by_cases hk : a ∈ attackMap
    · cases happ : applyAttack D a (hGet (h ++ [hGet h fullRef]) h.length) m with
      | error e =>
        simp only [runLoop, if_pos hk, happ]
        rw [hGet_append_lt h _ fullRef hfh]
      | ok p =>
        obtain ⟨instDf, tgt⟩ := p
        have e2 : hGet (hSet (h ++ [hGet h fullRef]) h.length instDf) fullRef = hGet h fullRef := by
          rw [hGet_set_ne _ _ _ _ (by omega)]
          exact hGet_append_lt h _ fullRef hfh
        have l2 : fullRef < (hSet (h ++ [hGet h fullRef]) h.length instDf).length := by
          simp [hSet]; omega
        by_cases hemp : (subsetOf instDf tgt).isEmpty
        · simp only [runLoop, if_pos hk, happ, hemp, if_pos]
          rw [ih _ _ _ l2, e2]
        · simp only [runLoop, if_pos hk, happ, hemp, Bool.false_eq_true, if_false]
          rw [ih _ _ _ (by simp [hSet] at l2 ⊢; omega)]
          rw [hGet_set_self _ _ _ l2]
          rw [markRows_eraseMarks, e2]
    · simp only [runLoop, if_pos, hk]
      simp

theorem runLoop_invalid_err (D : Dists) (m : Rat) (vb : Bool) (fullRef : Nat) :
    ∀ (sel : List String) (h : Heap) (lg : List String) (recs : List (List Row)),
      (∃ a ∈ sel, a ∉ attackMap) →
      ∃ e, (runLoop D m vb fullRef sel h lg recs).2.2 = .error e := by
  intro sel
  induction sel with
  | nil => intro h lg recs hex; simp at hex
  | cons a rest ih =>
    intro h lg recs hex
    by_cases hk : a ∈ attackMap
    · have hrest : ∃ b ∈ rest, b ∉ attackMap := by
        obtain ⟨b, hb, hnb⟩ := hex
        rcases List.mem_cons.mp hb with rfl | hbr
        · exact absurd hk hnb
        · exact ⟨b, hbr, hnb⟩
      cases happ : applyAttack D a (hGet (h ++ [hGet h fullRef]) h.length) m with
      | error e => exact ⟨e, by simp only [runLoop, if_pos hk, happ]⟩
      | ok p =>
        obtain ⟨instDf, tgt⟩ := p
        by_cases hemp : (subsetOf instDf tgt).isEmpty
        · simp only [runLoop, if_pos hk, happ, hemp, if_pos]
          exact ih _ _ _ hrest
        · simp only [runLoop, if_pos hk, happ, hemp, Bool.false_eq_true, if_false]
          exact ih _ _ _ hrest
    · exact ⟨.valueError ("Unknown attack type: " ++ a), by simp only [runLoop, if_pos, hk]; simp⟩

theorem runLoop_head_invalid (D : Dists) (m : Rat) (vb : Bool) (fullRef : Nat)
    (a : String) (rest : List String) (h : Heap) (lg : List String)
    (recs : List (List Row)) (hk : a ∉ attackMap) :
    (runLoop D m vb fullRef (a :: rest) h lg recs).2.2
      = .error (.valueError ("Unknown attack type: " ++ a)) := by
  simp only [runLoop, if_pos, hk]
  simp

theorem runLoop_allskip (D : Dists) (m : Rat) (fullRef : Nat) :
    ∀ (sel : List String) (h : Heap) (lg : List String) (recs : List (List Row)),
      fullRef < h.length →
      (∀ a ∈ sel, a ∈ attackMap) →
      (∀ a ∈ sel, attackTargets a (hGet h fullRef) = []) →
      (∀ a ∈ sel, sigmaOKb a (hGet h fullRef) = true) →
      (runLoop D m true fullRef sel h lg recs).2.2 = .ok recs
        ∧ (runLoop D m true fullRef sel h lg recs).2.1
            = lg ++ sel.flatMap (fun a =>
                ["[+] Applying " ++ pyCapitalize a ++ " Attack",
                 "[-] No rows affected by " ++ pyCapitalize a ++ " Attack."])
        ∧ hGet (runLoop D m true fullRef sel h lg recs).1 fullRef = hGet h fullRef := by
  intro sel
  induction sel with
  | nil => intro h lg recs _ _ _ _; exact ⟨rfl, by simp [runLoop], rfl⟩
  | cons a rest ih =>
    intro h lg recs hfh hall htg hsg
    have hk : a ∈ attackMap := hall a (List.mem_cons_self a rest)
    have hread : hGet (h ++ [hGet h fullRef]) h.length = hGet h fullRef := by
      have := hGet_append_len h (hGet h fullRef)
      exact this
    obtain ⟨p, happ⟩ := isOk_exists
      (apply_isOk D (hGet (h ++ [hGet h fullRef]) h.length) m a hk
        (by rw [hread]; exact hsg a (List.mem_cons_self a rest)))
    obtain ⟨instDf, tgt⟩ := p
    have htgt : tgt = [] := by
      have := apply_tgt D _ m a instDf tgt hk happ
      rw [hread] at this
      rw [this, htg a (List.mem_cons_self a rest)]
    subst htgt
    have hemp : (subsetOf instDf ([] : List Nat)).isEmpty = true := rfl
    have e2 : hGet (hSet (h ++ [hGet h fullRef]) h.length instDf) fullRef = hGet h fullRef := by
      rw [hGet_set_ne _ _ _ _ (by omega)]
      exact hGet_append_lt h _ fullRef hfh
    have l2 : fullRef < (hSet (h ++ [hGet h fullRef]) h.length instDf).length := by
      simp [hSet]; omega
    have ihh := ih (hSet (h ++ [hGet h fullRef]) h.length instDf)
      (lg ++ ["[+] Applying " ++ pyCapitalize a ++ " Attack"]
        ++ ["[-] No rows affected by " ++ pyCapitalize a ++ " Attack."]) recs l2
      (fun b hb => hall b (List.mem_cons_of_mem a hb))
      (fun b hb => by rw [e2]; exact htg b (List.mem_cons_of_mem a hb))
      (fun b hb => by rw [e2]; exact hsg b (List.mem_cons_of_mem a hb))
    refine ⟨?_, ?_, ?_⟩
    · simp only [runLoop, if_pos hk, happ, hemp, if_pos]
      simpa using ihh.1
    · simp only [runLoop, if_pos hk, happ, hemp, if_pos]
      have := ihh.2.1
      simp only [List.append_assoc] at this ⊢
      simpa [List.flatMap] using this
    · simp only [runLoop, if_pos hk, happ, hemp, if_pos]
      rw [ihh.2.2]
      exact e2

theorem safeMean_nonneg (xs : List Rat) : 0 ≤ safeMean xs := by
  simp only [safeMean]
  split_ifs with h1 h2
  · norm_num
  · exact h2
  · norm_num

theorem pyTrunc_nonneg (q : Rat) (h : 0 ≤ q) : 0 ≤ pyTrunc q := by
  unfold pyTrunc
  rw [if_pos h]
  exact Rat.le_floor.mpr (by exact_mod_cast h)

theorem map_comp_proj {α : Type} (f : Row → Row) (g : Row → α)
    (hg : ∀ r, g (f r) = g r) (df : List Row) : (df.map f).map g = df.map g := by
  rw [List.map_map]
  exact List.map_congr_left (fun r _ => hg r)

theorem filterIdx_map (f : Row → Row) (p : Row → Bool) (hp : ∀ r, p (f r) = p r)
    (df : List Row) : filterIdx p (df.map f) = filterIdx p df := by
  unfold filterIdx
  rw [List.length_map]
  apply List.filter_congr
  intro i hi
  rw [getD_map_lt f df i (List.mem_range.mp hi), hp]

theorem attackFiltered_map (kind : String) (f : Row → Row)
    (hcat : ∀ r, (f r).category = r.category)
    (hts : ∀ r, (f r).timestampHour = r.timestampHour) (df : List Row) :
    attackFiltered kind (df.map f) = attackFiltered kind df := by
  unfold attackFiltered
  have hpred : ∀ r, kindPred kind (f r) = kindPred kind r := by
    intro r
    unfold kindPred
    split <;> simp [hcat, hts]
  by_cases hk : kind == "insider"
  · rw [if_pos hk, if_pos hk]
    rw [List.map_map]
    have h1 : filterIdx (kindPred "insider") (df.map (addHourCol ∘ f))
        = filterIdx (kindPred "insider") df := by
      apply filterIdx_map
      intro r
      have e1 : kindPred "insider" (addHourCol (f r)) = kindPred "insider" (f r) := by
        unfold kindPred addHourCol
        simp
      have hk2 : kind = "insider" := by simpa using hk
      rw [Function.comp_apply, e1, ← hk2, hpred]
    have h2 : filterIdx (kindPred "insider") (df.map addHourCol)
        = filterIdx (kindPred "insider") df := by
      apply filterIdx_map
      intro r
      unfold kindPred addHourCol
      simp
    rw [h1, h2]
  · rw [if_neg hk, if_neg hk]
    exact filterIdx_map f (kindPred kind) hpred df

theorem attackTargets_initWorking (kind : String) (df : List Row) :
    attackTargets kind (initWorking df) = attackTargets kind df := by
  unfold attackTargets initWorking
  rw [attackFiltered_map kind (fun r => { r with anomalyInjected := false })
    (fun _ => rfl) (fun _ => rfl) df]

theorem sigmaOKb_initWorking (kind : String) (df : List Row) :
    sigmaOKb kind (initWorking df) = sigmaOKb kind df := by
  unfold sigmaOKb initWorking
  rw [map_comp_proj (fun r => { r with anomalyInjected := false })
      Row.dataTransferMB (fun _ => rfl) df,
    map_comp_proj (fun r => { r with anomalyInjected := false })
      Row.impactScore (fun _ => rfl) df,
    map_comp_proj (fun r => { r with anomalyInjected := false })
      Row.threatScore (fun _ => rfl) df,
    map_comp_proj (fun r => { r with anomalyInjected := false })
      Row.memUsage (fun _ => rfl) df]

theorem runSelected_eq (D : Dists) (heap : Heap) (r : Nat) (m : Rat)
    (sel : List String) (vb : Bool) (hne : sel.isEmpty = false) :
    run_selected_attacks D heap (some r) m sel vb
      = ((runLoop D m vb heap.length sel (heap ++ [initWorking (hGet heap r)]) [] []).1,
         (runLoop D m vb heap.length sel (heap ++ [initWorking (hGet heap r)]) [] []).2.1,
         (runLoop D m vb heap.length sel
            (heap ++ [initWorking (hGet heap r)]) [] []).2.2.map List.flatten) := by
  simp only [run_selected_attacks, hne, Bool.false_eq_true, if_false]
  rcases ht : runLoop D m vb heap.length sel (heap ++ [initWorking (hGet heap r)]) [] []
    with ⟨h2, lg, res⟩
  cases res <;> simp [Except.map]

theorem meanAbsDiff_le (df out1 out2 : List Row) (c : Col) (tgt : List Nat)
    (hpt : ∀ i ∈ tgt, |colFn c (rowGet out1 i) - colFn c (rowGet df i)|
                    ≤ |colFn c (rowGet out2 i) - colFn c (rowGet df i)|) :
    meanAbsDiff df out1 c tgt ≤ meanAbsDiff df out2 c tgt := by
  unfold meanAbsDiff
  rcases Nat.eq_zero_or_pos tgt.length with h0 | hpos
  · rw [List.length_eq_zero.mp h0]
    simp
  · have hc : (0 : Rat) < (tgt.length : Rat) := by exact_mod_cast hpos
    exact (div_le_div_right hc).mpr (List.sum_le_sum hpt)

/-- C1: `BaseAttackSimulator.run_multiple_attacks` calls
`run_selected_attacks(self.base_data, attack_list)`, binding the attack list
to the `anomaly_magnitude` parameter and leaving the required
`selected_attacks` parameter unbound; Python therefore raises a TypeError at
the call, before any attack is applied (the heap is returned untouched), so
`simulate_coordinated_attack` never returns normally for any non-empty phase
list. -/
theorem c1_run_multiple_attacks_type_error (heap : Heap) (baseRef : Nat)
    (attackList : List String) (phases : List String)
    (seq : Option (List (String × List String))) (m : Rat) (hp : phases ≠ []) :
    line59Binding = [("df", "self.base_data"), ("anomaly_magnitude", "attack_list")]
    ∧ missingRequired runSelectedAttacksParams 2 = ["selected_attacks"]
    ∧ run_multiple_attacks heap baseRef attackList
        = (heap, .error (.typeError rsMissingMsg))
    ∧ (simulate_coordinated_attack heap baseRef phases seq m).2
        = .error (.typeError rsMissingMsg) := by
  refine ⟨rfl, rfl, rfl, ?_⟩
  cases phases with
  | nil => exact absurd rfl hp
  | cons p ps => rfl

/-- Witness for C1 at a concrete heap, attack list and phase list. -/
theorem c1_witness :
    (["initial"] : List String) ≠ []
    ∧ (line59Binding = [("df", "self.base_data"), ("anomaly_magnitude", "attack_list")]
      ∧ missingRequired runSelectedAttacksParams 2 = ["selected_attacks"]
      ∧ run_multiple_attacks [[{}]] 0 ["phishing"]
          = ([[{}]], .error (.typeError rsMissingMsg))
      ∧ (simulate_coordinated_attack [[{}]] 0 ["initial"] none (3/2)).2
          = .error (.typeError rsMissingMsg)) :=
  ⟨by decide,
   c1_run_multiple_attacks_type_error [[{}]] 0 ["phishing"] ["initial"] none (3/2)
     (by decide)⟩

/-- C2: the spec requires the coordinated run with the default phases and
mapping to return a three-group phase-tagged table plus the default attack
log; the code instead propagates the TypeError of the broken
`run_multiple_attacks` call in the first phase, on any base table. -/
theorem c2_coordinated_default_raises :
    (simulate_coordinated_attack [[{}]] 0 ["initial", "escalation", "critical"]
        none (3/2)).2
      = .error (.typeError rsMissingMsg) := rfl

/-- C3 (amended): a selection list containing an unknown kind always makes
`run_selected_attacks` fail with some error and leaves the caller's table
unchanged; the error is the `Unknown attack type` ValueError naming the
unknown kind whenever that kind is reached before an earlier attack's
parameter validation raises — in particular whenever it is first in the
list. -/
theorem c3_amended_invalid_kind (D : Dists) (heap : Heap) (r : Nat) (m : Rat)
    (sel : List String) (vb : Bool) (hr : r < heap.length)
    (hex : ∃ a ∈ sel, a ∉ attackMap) :
    (∃ e, (run_selected_attacks D heap (some r) m sel vb).2.2 = .error e)
    ∧ hGet (run_selected_attacks D heap (some r) m sel vb).1 r = hGet heap r
    ∧ ∀ a rest, sel = a :: rest → a ∉ attackMap →
        (run_selected_attacks D heap (some r) m sel vb).2.2
          = .error (.valueError ("Unknown attack type: " ++ a)) := by
  have hne : sel.isEmpty = false := by
    obtain ⟨a, ha, _⟩ := hex
    cases sel
    · simp at ha
    · rfl
  rw [runSelected_eq D heap r m sel vb hne]
  refine ⟨?_, ?_, ?_⟩
  · obtain ⟨e, he⟩ := runLoop_invalid_err D m vb heap.length sel
      (heap ++ [initWorking (hGet heap r)]) [] [] hex
    exact ⟨e, by simp [he, Except.map]⟩
  · show hGet (runLoop D m vb heap.length sel
        (heap ++ [initWorking (hGet heap r)]) [] []).1 r = hGet heap r
    rw [runLoop_preserve D m vb heap.length sel _ [] [] r hr (by simp)]
    exact hGet_append_lt heap _ r hr
  · intro a rest hsel hk
    subst hsel
    have hhead := runLoop_head_invalid D m vb heap.length a rest
      (heap ++ [initWorking (hGet heap r)]) [] [] hk
    show ((runLoop D m vb heap.length (a :: rest)
        (heap ++ [initWorking (hGet heap r)]) [] []).2.2.map List.flatten)
      = .error (.valueError ("Unknown attack type: " ++ a))
    rw [hhead]
    rfl

/-- C6: every transformation of the pipeline — a single attack, the
single-phase runner, the multi-phase coordinated runner and the early
anomaly detector — copies the caller's table before working, so the
caller's heap cell is unchanged after the call. -/
theorem c6_caller_table_unchanged (D : Dists) (heap : Heap) (ref : Nat) (m : Rat)
    (kind : String) (sel : List String) (vb : Bool) (phases : List String)
    (seq : Option (List (String × List String))) (col : Row → Rat)
    (hr : ref < heap.length) :
    hGet (attackApplyHeap D kind heap ref m).1 ref = hGet heap ref
    ∧ hGet (run_selected_attacks D heap (some ref) m sel vb).1 ref = hGet heap ref
    ∧ hGet (simulate_coordinated_attack heap ref phases seq m).1 ref = hGet heap ref
    ∧ hGet (earlyDetectorHeap heap ref col).1 ref = hGet heap ref := by
  refine ⟨?_, ?_, ?_, ?_⟩
  · by_cases hk : kind ∈ attackMap
    · cases happ : applyAttack D kind (hGet (heap ++ [hGet heap ref]) heap.length) m with
      | error e =>
        simp only [attackApplyHeap, if_pos hk, happ]
        exact hGet_append_lt heap _ ref hr
      | ok p =>
        obtain ⟨instDf, tgt⟩ := p
        simp only [attackApplyHeap, if_pos hk, happ]
        rw [hGet_set_ne _ _ _ _ (by omega)]
        exact hGet_append_lt heap _ ref hr
    · simp only [attackApplyHeap, if_neg hk]
  · by_cases hne : sel.isEmpty
    · simp [run_selected_attacks, hne]
    · rw [runSelected_eq D heap ref m sel vb (by simpa using hne)]
      show hGet (runLoop D m vb heap.length sel
          (heap ++ [initWorking (hGet heap ref)]) [] []).1 ref = hGet heap ref
      rw [runLoop_preserve D m vb heap.length sel _ [] [] ref hr (by simp)]
      exact hGet_append_lt heap _ ref hr
  · cases phases with
    | nil =>
      show hGet (heap ++ [hGet heap ref]) ref = hGet heap ref
      exact hGet_append_lt heap _ ref hr
    | cons p ps =>
      show hGet ((heap ++ [hGet heap ref])
          ++ [hGet (heap ++ [hGet heap ref]) heap.length]) ref = hGet heap ref
      rw [hGet_append_lt _ _ ref (by simp; omega)]
      exact hGet_append_lt heap _ ref hr
  · simp only [earlyDetectorHeap]
    rw [hGet_set_ne _ _ _ _ (by omega)]
    exact hGet_append_lt heap _ ref hr

/-- Witness for C6 at a concrete heap and arguments. -/
theorem c6_witness :
    0 < ([[{}]] : Heap).length
    ∧ (hGet (attackApplyHeap idDists "phishing" [[{}]] 0 (3/2)).1 0 = hGet [[{}]] 0
      ∧ hGet (run_selected_attacks idDists [[{}]] (some 0) (3/2) ["phishing"] true).1 0
          = hGet [[{}]] 0
      ∧ hGet (simulate_coordinated_attack [[{}]] 0 ["initial"] none (3/2)).1 0
          = hGet [[{}]] 0
      ∧ hGet (earlyDetectorHeap [[{}]] 0 Row.threatScore).1 0 = hGet [[{}]] 0) :=
  ⟨by decide,
   c6_caller_table_unchanged idDists [[{}]] 0 (3/2) "phishing" ["phishing"] true
     ["initial"] none Row.threatScore (by decide)⟩

/-- C10: through any prefix of the attack loop of `run_selected_attacks`,
the working table differs from the caller's table only in the
`AnomalyInjected` flag and the `Attack Type` label: the numeric
perturbations live on each attack instance's private copy, so every attack
after the first still reads the original numeric column values. -/
theorem c10_no_accumulation (D : Dists) (m : Rat) (vb : Bool) (heap : Heap)
    (r : Nat) (atks : List String) (k : Nat) :
    (hGet (runLoop D m vb heap.length (atks.take k)
        (heap ++ [initWorking (hGet heap r)]) [] []).1 heap.length).map eraseMarks
      = (hGet heap r).map eraseMarks := by
  have hfl : heap.length < (heap ++ [initWorking (hGet heap r)]).length := by simp
  rw [runLoop_marks D m vb heap.length (atks.take k) _ [] [] hfl]
  rw [hGet_append_len]
  unfold initWorking
  rw [map_comp_proj (fun x => { x with anomalyInjected := false }) eraseMarks
    (fun _ => rfl) (hGet heap r)]

/-- C4 (amended): each kind's transformation returns a non-empty subset
whose rows all carry the kind's label, provided the predicate-matching rows
number at least 20 for the five kinds with sampling fraction 1/10 or 1/5 —
for ransomware (fraction 0.02, sampled count `round(0.02·n)`) at least 26
are needed — and provided the lognormal sigma validations pass (variance at
least 1 on the columns the lognormal kinds perturb). -/
theorem c4_amended_nonempty_labeled (D : Dists) (df : List Row) (m : Rat)
    (kind : String) (hk : kind ∈ attackMap) (hs : sigmaOKb kind df = true)
    (h20 : kind ≠ "ransomware" → 20 ≤ (attackFiltered kind df).length)
    (h26 : kind = "ransomware" → 26 ≤ (attackFiltered kind df).length) :
    ∃ out, applyAttack D kind df m = .ok (out, attackTargets kind df)
      ∧ subsetOf out (attackTargets kind df) ≠ []
      ∧ ∀ row ∈ subsetOf out (attackTargets kind df),
          row.attackType = kindLabel kind := by
  obtain ⟨p, happ⟩ := isOk_exists (apply_isOk D df m kind hk hs)
  obtain ⟨out, tgt⟩ := p
  have ht := apply_tgt D df m kind out tgt hk happ
  subst ht
  refine ⟨out, happ, ?_, ?_⟩
  · have hn : 1 ≤ (attackTargets kind df).length := by
      rw [attackTargets_len]
      have hcount : 1 ≤ sampleCount (kindFrac kind) (attackFiltered kind df).length := by
        unfold sampleCount
        by_cases hrw : kind = "ransomware"
        · have h26' := h26 hrw
          have hq : (1:Rat)/2 < kindFrac kind * ((attackFiltered kind df).length : Rat) := by
            have hn26 : (26:Rat) ≤ ((attackFiltered kind df).length : Rat) := by
              exact_mod_cast h26'
            have hfr : kindFrac kind = 1/50 := by rw [hrw]; rfl
            rw [hfr]
            linarith
          have := roundHalfEven_pos _ hq
          omega
        · have h20' := h20 hrw
          have hfr : kindFrac kind = 1/10 ∨ kindFrac kind = 1/5 := by
            simp only [attackMap, List.mem_cons, List.not_mem_nil, or_false] at hk
            rcases hk with rfl | rfl | rfl | rfl | rfl | rfl
            · exact Or.inl rfl
            · exact Or.inl rfl
            · exact Or.inr rfl
            · exact Or.inl rfl
            · exact Or.inl rfl
            · exact absurd rfl hrw
          have hq : (1:Rat)/2 < kindFrac kind * ((attackFiltered kind df).length : Rat) := by
            have hn20 : (20:Rat) ≤ ((attackFiltered kind df).length : Rat) := by
              exact_mod_cast h20'
            rcases hfr with hf | hf <;> rw [hf] <;> linarith
          have := roundHalfEven_pos _ hq
          omega
      have hfn : 1 ≤ (attackFiltered kind df).length := by
        by_cases hrw : kind = "ransomware"
        · have := h26 hrw; omega
        · have := h20 hrw; omega
      omega
    intro hemp
    have hlen : (subsetOf out (attackTargets kind df)).length
        = (attackTargets kind df).length := List.length_map _ _
    rw [hemp] at hlen
    simp at hlen
    omega
  · intro row hrow
    obtain ⟨i, hi, hri⟩ := List.mem_map.mp hrow
    rw [← hri]
    exact apply_label D df m kind out _ hk happ i hi

/-- C5 (amended): the ddos transformation escalates severity numerically —
for a nonnegative magnitude the Impact Score and Threat Score of every
targeted row never decrease (exponential noise is nonnegative) and the row
is labelled `DDoS` — but no field is ever set to a `Critical` level: the
Threat Level field is untouched. -/
theorem c5_amended_ddos_escalation (D : Dists) (df : List Row) (m : Rat)
    (out : List Row) (tgt : List Nat) (hm : 0 ≤ m)
    (hok : applyAttack D "ddos" df m = .ok (out, tgt)) :
    ∀ i ∈ tgt,
      (rowGet df i).impactScore ≤ (rowGet out i).impactScore
      ∧ (rowGet df i).threatScore ≤ (rowGet out i).threatScore
      ∧ (rowGet out i).attackType = "DDoS"
      ∧ (rowGet out i).threatLevel = (rowGet df i).threatLevel := by
  obtain ⟨ht, hrow⟩ := ddos_out D df m out tgt hok
  subst ht
  intro i hi
  rw [hrow i hi]
  refine ⟨?_, ?_, rfl, rfl⟩
  · show (rowGet df i).impactScore ≤ (rowGet df i).impactScore
      + m * kindNoise D "ddos" df .impact ((attackTargets "ddos" df).indexOf i)
    have hnn : (0:Rat) ≤ kindNoise D "ddos" df .impact
        ((attackTargets "ddos" df).indexOf i) := by
      simp only [kindNoise]
      have he := D.exponential_nonneg (safeMean (df.map Row.impactScore))
        ((attackTargets "ddos" df).indexOf i) (safeMean_nonneg _)
      exact_mod_cast pyTrunc_nonneg _ he
    nlinarith
  · show (rowGet df i).threatScore ≤ (rowGet df i).threatScore
      + m * kindNoise D "ddos" df .threat ((attackTargets "ddos" df).indexOf i)
    have hnn : (0:Rat) ≤ kindNoise D "ddos" df .threat
        ((attackTargets "ddos" df).indexOf i) := by
      simp only [kindNoise]
      have he := D.exponential_nonneg (safeMean (df.map Row.threatScore))
        ((attackTargets "ddos" df).indexOf i) (safeMean_nonneg _)
      exact_mod_cast pyTrunc_nonneg _ he
    nlinarith

/-- C7 (amended): for valid kinds whose selections are all empty and whose
lognormal sigma validations pass, `run_selected_attacks` returns the empty
result set without error, and each kind is skipped with a diagnostic note in
the log (on an empty table the sigma validation passes only for the
non-lognormal kinds phishing, malware and ddos; the lognormal kinds raise
numpy's `sigma < 0` ValueError there). -/
theorem c7_amended_zero_selection (D : Dists) (heap : Heap) (r : Nat) (m : Rat)
    (sel : List String) (hne : sel ≠ [])
    (hall : ∀ a ∈ sel, a ∈ attackMap)
    (htg : ∀ a ∈ sel, attackTargets a (hGet heap r) = [])
    (hsg : ∀ a ∈ sel, sigmaOKb a (hGet heap r) = true) :
    (run_selected_attacks D heap (some r) m sel true).2.2 = .ok []
    ∧ (run_selected_attacks D heap (some r) m sel true).2.1
        = sel.flatMap (fun a =>
            ["[+] Applying " ++ pyCapitalize a ++ " Attack",
             "[-] No rows affected by " ++ pyCapitalize a ++ " Attack."]) := by
  have hne' : sel.isEmpty = false := by
    cases sel
    · exact absurd rfl hne
    · rfl
  rw [runSelected_eq D heap r m sel true hne']
  have hfl : heap.length < (heap ++ [initWorking (hGet heap r)]).length := by simp
  have hread : hGet (heap ++ [initWorking (hGet heap r)]) heap.length
      = initWorking (hGet heap r) := hGet_append_len heap _
  have hall' := runLoop_allskip D m heap.length sel
    (heap ++ [initWorking (hGet heap r)]) [] [] hfl hall
    (fun a ha => by rw [hread, attackTargets_initWorking]; exact htg a ha)
    (fun a ha => by rw [hread, sigmaOKb_initWorking]; exact hsg a ha)
  constructor
  · show ((runLoop D m true heap.length sel
        (heap ++ [initWorking (hGet heap r)]) [] []).2.2.map List.flatten) = .ok []
    rw [hall'.1]
    rfl
  · show (runLoop D m true heap.length sel
        (heap ++ [initWorking (hGet heap r)]) [] []).2.1 = _
    rw [hall'.2.1]
    simp

/-- C8: with the seed (the draw streams) fixed, the per-row perturbation an
attack adds to each of its targeted numeric columns is the magnitude times a
magnitude-independent noise term, so doubling the magnitude cannot decrease
the mean absolute perturbation on any targeted column. -/
theorem c8_magnitude_scaling (D : Dists) (df : List Row) (m : Rat)
    (kind : String) (c : Col) (out1 out2 : List Row) (tgt1 tgt2 : List Nat)
    (hk : kind ∈ attackMap) (hc : c ∈ targetedCols kind)
    (h1 : applyAttack D kind df m = .ok (out1, tgt1))
    (h2 : applyAttack D kind df (2 * m) = .ok (out2, tgt2)) :
    tgt2 = tgt1 ∧ meanAbsDiff df out1 c tgt1 ≤ meanAbsDiff df out2 c tgt2 := by
  have ht1 := apply_tgt D df m kind out1 tgt1 hk h1
  have ht2 := apply_tgt D df (2 * m) kind out2 tgt2 hk h2
  subst ht1
  subst ht2
  refine ⟨rfl, ?_⟩
  apply meanAbsDiff_le
  intro i hi
  rw [apply_diff D df m kind out1 _ hk h1 i hi c hc,
    apply_diff D df (2 * m) kind out2 _ hk h2 i hi c hc]
  have habs : |2 * m * kindNoise D kind df c ((attackTargets kind df).indexOf i)|
      = 2 * |m * kindNoise D kind df c ((attackTargets kind df).indexOf i)| := by
    rw [mul_assoc, abs_mul]
    norm_num
  rw [habs]
  linarith [abs_nonneg (m * kindNoise D kind df c ((attackTargets kind df).indexOf i))]

theorem setFlag_anomaly (k : Nat) (r : Row) : (setFlag k r).actualAnomaly = some k := rfl

theorem eraseFlag_setFlag (k : Nat) (r : Row) : eraseFlag (setFlag k r) = eraseFlag r := rfl

theorem partition_helper (p : Row → Bool) :
    ∀ df : List Row,
      (df.map (fun r => setFlag (if p r then 1 else 0) r)).filter
          (fun r => r.actualAnomaly == some 1)
        = (df.filter p).map (setFlag 1)
      ∧ (df.map (fun r => setFlag (if p r then 1 else 0) r)).filter
          (fun r => r.actualAnomaly == some 0)
        = (df.filter (fun r => !p r)).map (setFlag 0)
      ∧ List.Perm
          (((df.map (fun r => setFlag (if p r then 1 else 0) r)).filter
              (fun r => r.actualAnomaly == some 1)
            ++ (df.map (fun r => setFlag (if p r then 1 else 0) r)).filter
              (fun r => r.actualAnomaly == some 0)).map eraseFlag)
          (df.map eraseFlag) := by
  intro df
  induction df with
  | nil => exact ⟨rfl, rfl, List.Perm.refl _⟩
  | cons r t ih =>
    obtain ⟨ih1, ih2, ih3⟩ := ih
    by_cases hp : p r
    · refine ⟨?_, ?_, ?_⟩
      · simp [hp, List.filter_cons, setFlag_anomaly, ih1]
      · simp [hp, List.filter_cons, setFlag_anomaly, ih2]
      · simp only [List.map_cons, hp, if_true, List.filter_cons, setFlag_anomaly]
        simp only [show ((some 1 : Option Nat) == some 1) = true from rfl,
          show ((some 1 : Option Nat) == some 0) = false from rfl, if_true, if_false,
          List.cons_append, List.map_cons, eraseFlag_setFlag]
        exact List.Perm.cons _ ih3
    · have hp' : p r = false := by
        cases hpb : p r
        · rfl
        · exact absurd hpb hp
      refine ⟨?_, ?_, ?_⟩
      · simp [hp', List.filter_cons, setFlag_anomaly, ih1]
      · simp [hp', List.filter_cons, setFlag_anomaly, ih2]
      · simp only [List.map_cons, hp', if_false, List.filter_cons, setFlag_anomaly]
        simp only [show ((some 0 : Option Nat) == some 1) = false from rfl,
          show ((some 0 : Option Nat) == some 0) = true from rfl, if_true, if_false,
          List.map_append, List.map_cons, eraseFlag_setFlag]
        refine List.Perm.trans List.perm_middle ?_
        refine List.Perm.cons _ ?_
        rw [← List.map_append]
        exact ih3

/-- C9: the early anomaly detector returns exactly the IQR-rule partition of
its input — the flagged part is the outside-the-bounds rows with flag 1, the
unflagged part the rest with flag 0; together they are a permutation of the
input once the added flag is erased, and the two parts share no row. -/
theorem c9_detector_partition (df : List Row) (col : Row → Rat) :
    (detect_early_anomalies df col).1
      = (df.filter (iqrOutside df col)).map (setFlag 1)
    ∧ (detect_early_anomalies df col).2
      = (df.filter (fun r => !iqrOutside df col r)).map (setFlag 0)
    ∧ List.Perm
        (((detect_early_anomalies df col).1
            ++ (detect_early_anomalies df col).2).map eraseFlag)
        (df.map eraseFlag)
    ∧ ∀ r ∈ (detect_early_anomalies df col).1,
        r ∉ (detect_early_anomalies df col).2 := by
  have hflag : detectFlagged df col
      = df.map (fun r => setFlag (if iqrOutside df col r then 1 else 0) r) := by
    unfold detectFlagged iqrOutside setFlag
    apply List.map_congr_left
    intro r _
    by_cases h : col r < quantileLinear (df.map col) (1/4)
          - 3/2 * (quantileLinear (df.map col) (3/4) - quantileLinear (df.map col) (1/4))
        ∨ quantileLinear (df.map col) (3/4)
          + 3/2 * (quantileLinear (df.map col) (3/4) - quantileLinear (df.map col) (1/4))
          < col r
    · simp [h]
    · simp [h]
  have hph := partition_helper (iqrOutside df col) df
  have h1 : (detect_early_anomalies df col).1
      = (df.filter (iqrOutside df col)).map (setFlag 1) := by
    show (detectFlagged df col).filter (fun r => r.actualAnomaly == some 1) = _
    rw [hflag]
    exact hph.1
  have h2 : (detect_early_anomalies df col).2
      = (df.filter (fun r => !iqrOutside df col r)).map (setFlag 0) := by
    show (detectFlagged df col).filter (fun r => r.actualAnomaly == some 0) = _
    rw [hflag]
    exact hph.2.1
  refine ⟨h1, h2, ?_, ?_⟩
  · show (((detectFlagged df col).filter (fun r => r.actualAnomaly == some 1)
        ++ (detectFlagged df col).filter (fun r => r.actualAnomaly == some 0)).map eraseFlag).Perm
      (df.map eraseFlag)
    rw [hflag]
    exact hph.2.2
  · intro r hr1 hr2
    rw [h1] at hr1
    rw [h2] at hr2
    obtain ⟨s, _, hs⟩ := List.mem_map.mp hr1
    obtain ⟨u, _, hu⟩ := List.mem_map.mp hr2
    have : (some 1 : Option Nat) = some 0 := by
      calc (some 1 : Option Nat) = (setFlag 1 s).actualAnomaly := rfl
        _ = r.actualAnomaly := by rw [hs]
        _ = (setFlag 0 u).actualAnomaly := by rw [hu]
        _ = some 0 := rfl
    simp at this

section ConcreteEvaluation

attribute [local semireducible] Rat.add Rat.mul Rat.inv Rat.sub Rat.ofScientific

/-- Counterexample for C3 as stated: on a table whose transfer column has
sample variance below 1, the valid `data_leak` kind raises numpy's
`sigma < 0` ValueError before the unknown kind `bogus` is reached, so the
failure does not name the unsupported kind. -/
theorem c3_counterexample_sigma_first :
    (run_selected_attacks idDists [df3DB] (some 0) (3/2) ["data_leak", "bogus"] true).2.2
      = .error (.valueError "sigma < 0")
    ∧ ("sigma < 0" : String) ≠ "Unknown attack type: bogus" := by
  refine ⟨by decide, by decide⟩

/-- Witness for C3 (amended) at a concrete heap and list. -/
theorem c3_witness :
    0 < ([[{}]] : Heap).length
    ∧ (∃ a ∈ (["bogus"] : List String), a ∉ attackMap)
    ∧ ((∃ e, (run_selected_attacks idDists [[{}]] (some 0) (3/2) ["bogus"] true).2.2
          = .error e)
      ∧ hGet (run_selected_attacks idDists [[{}]] (some 0) (3/2) ["bogus"] true).1 0
          = hGet [[{}]] 0
      ∧ ∀ a rest, (["bogus"] : List String) = a :: rest → a ∉ attackMap →
          (run_selected_attacks idDists [[{}]] (some 0) (3/2) ["bogus"] true).2.2
            = .error (.valueError ("Unknown attack type: " ++ a))) :=
  ⟨by decide, by decide,
   c3_amended_invalid_kind idDists [[{}]] 0 (3/2) ["bogus"] true (by decide) (by decide)⟩

/-- Counterexample for C4 as stated: a table with exactly 20 rows matching
the ransomware predicate (and healthy variances, so no sigma error) yields
an empty result subset, because `round(0.02 * 20) = 0` rows are sampled. -/
theorem c4_counterexample_ransomware_20rows :
    20 ≤ (attackFiltered "ransomware" df20SV).length
    ∧ sigmaOKb "ransomware" df20SV = true
    ∧ applySubset idDists "ransomware" df20SV (3/2) = .ok [] := by
  refine ⟨by decide, by decide, by decide⟩

/-- Witness for C4 (amended): phishing on 20 matching rows. -/
theorem c4_witness :
    ("phishing" ∈ attackMap)
    ∧ sigmaOKb "phishing" df20AC = true
    ∧ (∃ out, applyAttack idDists "phishing" df20AC (3/2)
          = .ok (out, attackTargets "phishing" df20AC)
        ∧ subsetOf out (attackTargets "phishing" df20AC) ≠ []
        ∧ ∀ row ∈ subsetOf out (attackTargets "phishing" df20AC),
            row.attackType = kindLabel "phishing") :=
  ⟨by decide, by decide,
   c4_amended_nonempty_labeled idDists df20AC (3/2) "phishing" (by decide) (by decide)
     (fun _ => by decide) (fun h => absurd h (by decide))⟩

/-- Counterexample for C5 as stated: a ddos run on a Network Security table
with a `Low` threat level returns a non-empty subset whose row still has
threat level `Low`, not `Critical`. -/
theorem c5_counterexample_no_critical :
    (applySubset idDists "ddos" df5NS (3/2)).toOption.getD [] ≠ []
    ∧ ((applySubset idDists "ddos" df5NS (3/2)).toOption.getD []).map Row.threatLevel
        = ["Low"]
    ∧ ("Low" : String) ≠ "Critical" := by
  refine ⟨by decide, by decide, by decide⟩

/-- Witness for C5 (amended) on the same concrete table. -/
theorem c5_witness :
    (0 : Rat) ≤ 3/2
    ∧ applyAttack idDists "ddos" df5NS (3/2) = .ok (c5OutPair.1, c5OutPair.2)
    ∧ ∀ i ∈ c5OutPair.2,
        (rowGet df5NS i).impactScore ≤ (rowGet c5OutPair.1 i).impactScore
        ∧ (rowGet df5NS i).threatScore ≤ (rowGet c5OutPair.1 i).threatScore
        ∧ (rowGet c5OutPair.1 i).attackType = "DDoS"
        ∧ (rowGet c5OutPair.1 i).threatLevel = (rowGet df5NS i).threatLevel :=
  ⟨by decide, by decide,
   c5_amended_ddos_escalation idDists df5NS (3/2) c5OutPair.1 c5OutPair.2
     (by decide) (by decide)⟩

/-- Counterexample for C7 as stated: on an empty base table the valid
`data_leak` kind raises numpy's `sigma < 0` ValueError (the default std 0.5
gives a negative lognormal sigma), instead of returning an empty result. -/
theorem c7_counterexample_empty_table :
    (run_selected_attacks idDists [[]] (some 0) (3/2) ["data_leak"] true).2.2
      = .error (.valueError "sigma < 0") := by decide

/-- Witness for C7 (amended): phishing on an empty table is skipped with a
note and yields the empty result. -/
theorem c7_witness :
    ((["phishing"] : List String) ≠ [])
    ∧ (∀ a ∈ (["phishing"] : List String), a ∈ attackMap)
    ∧ (∀ a ∈ (["phishing"] : List String), attackTargets a (hGet [[]] 0) = [])
    ∧ (∀ a ∈ (["phishing"] : List String), sigmaOKb a (hGet [[]] 0) = true)
    ∧ ((run_selected_attacks idDists [[]] (some 0) (3/2) ["phishing"] true).2.2 = .ok []
      ∧ (run_selected_attacks idDists [[]] (some 0) (3/2) ["phishing"] true).2.1
          = (["phishing"] : List String).flatMap (fun a =>
              ["[+] Applying " ++ pyCapitalize a ++ " Attack",
               "[-] No rows affected by " ++ pyCapitalize a ++ " Attack."])) :=
  ⟨by decide, by decide, by decide, by decide,
   c7_amended_zero_selection idDists [[]] 0 (3/2) ["phishing"] (by decide) (by decide)
     (by decide) (by decide)⟩

/-- Witness for C8 at a concrete kind, column and table. -/
theorem c8_witness :
    ("phishing" ∈ attackMap)
    ∧ (Col.login ∈ targetedCols "phishing")
    ∧ applyAttack idDists "phishing" [] (3/2) = .ok ([], [])
    ∧ applyAttack idDists "phishing" [] (2 * (3/2)) = .ok ([], [])
    ∧ (([] : List Nat) = []
      ∧ meanAbsDiff [] [] .login [] ≤ meanAbsDiff [] [] .login []) :=
  ⟨by decide, by decide, by decide, by decide,
   c8_magnitude_scaling idDists [] (3/2) "phishing" .login [] [] [] []
     (by decide) (by decide) (by decide) (by decide)⟩

end ConcreteEvaluation

end AttackSim
